import Mathlib

/-!
Verification of the MSPhysics C++ extension adapter layer against its
natural-language specification.

The repository's visible source is `C++Extension/Source/msp_lib.cpp`, the
root registration unit: `Init_msp_lib` defines the `MSPhysics` module, the
`MSPhysics::Newton` sub-module, and calls the `Init_msp_*` routine of every
component with the module it is registered under.  We embed that function as
the list of registration events it performs, in source order.

The component implementations (`msp_world.cpp`, `msp_body.cpp`,
`msp_collision.cpp`, `msp_joint*.cpp`, ...) are not part of the visible
source; the adapter state machine further below is modelled from the
specification's data model and component contracts.
-/

namespace MSP

/-- A single registration action performed by `Init_msp_lib`:
`defModule n` embeds `rb_define_module(n)`, `defModuleUnder p n` embeds
`rb_define_module_under(p, n)`, and `initComp p c` embeds the call
`Init_msp_c(p)` registering component `c` under module `p`. -/
inductive RegEvent where
  | defModule (name : String)
  | defModuleUnder (parent : String) (name : String)
  | initComp (parent : String) (comp : String)
deriving DecidableEq, Repr

/-- Embedding of `Init_msp_lib` from `msp_lib.cpp`: the sequence of
registration events it performs, in the exact source order.  The function
takes no arguments and contains no branches, so it is a constant list. -/
def Init_msp_lib : List RegEvent :=
  [ .defModule "MSPhysics",
    .defModuleUnder "MSPhysics" "Newton",
    .initComp "MSPhysics" "util",
    .initComp "Newton" "newton",
    .initComp "Newton" "world",
    .initComp "Newton" "collision",
    .initComp "Newton" "body",
    .initComp "Newton" "bodies",
    .initComp "Newton" "joint",
    .initComp "Newton" "ball_and_socket",
    .initComp "Newton" "corkscrew",
    .initComp "Newton" "fixed",
    .initComp "Newton" "hinge",
    .initComp "Newton" "motor",
    .initComp "Newton" "servo",
    .initComp "Newton" "slider",
    .initComp "Newton" "piston",
    .initComp "Newton" "spring",
    .initComp "Newton" "up_vector",
    .initComp "Newton" "universal",
    .initComp "MSPhysics" "sdl",
    .initComp "MSPhysics" "sdl_mixer",
    .initComp "MSPhysics" "sound",
    .initComp "MSPhysics" "music" ]

/-- The joint-variant component names, read off the
`msp_joint_<variant>.h` headers included by `msp_lib.cpp` (the shared
`msp_joint.h` contract is not a variant). -/
def jointVariantNames : List String :=
  [ "ball_and_socket", "corkscrew", "fixed", "hinge", "motor",
    "servo", "slider", "piston", "spring", "up_vector", "universal" ]

/-- The physics component names registered under the `Newton` sub-module
before the joint variants (the `util` component is registered under the
top-level module). -/
def physicsComponentNames : List String :=
  [ "newton", "world", "collision", "body", "bodies", "joint" ]

/-- The audio component names registered by `Init_msp_lib`. -/
def audioComponentNames : List String :=
  [ "sdl", "sdl_mixer", "sound", "music" ]

/-- Whether a registration event initialises a joint-variant module. -/
def RegEvent.isJointVariant : RegEvent → Bool
  | .initComp _ c => jointVariantNames.contains c
  | _ => false

/-- Whether a registration event initialises a non-util physics component
(world, body, collision, ... but not a joint variant). -/
def RegEvent.isPhysicsComponent : RegEvent → Bool
  | .initComp _ c => physicsComponentNames.contains c
  | _ => false

/-- Whether a registration event initialises an audio component. -/
def RegEvent.isAudio : RegEvent → Bool
  | .initComp _ c => audioComponentNames.contains c
  | _ => false

/-- The joint-variant component names registered by a registration
sequence, in order. -/
def registeredJointVariants (evs : List RegEvent) : List String :=
  evs.filterMap fun e =>
    match e with
    | .initComp _ c => if jointVariantNames.contains c then some c else none
    | _ => none

/-! ### The adapter state machine

Modelled from the spec: the component implementations (`msp_world.cpp`,
`msp_body.cpp`, `msp_collision.cpp`, `msp_joint*.cpp`) are not part of the
visible source; the definitions below follow the specification's data model
(section 3), component contracts (section 4) and error-handling design
(section 7). -/

/-- Modelled from the spec: the adapter's error kinds (spec section 7). -/
inductive Err where
  | InvalidHandle
  | InvalidParameter
  | InvalidGeometry
  | UnsupportedOperation
  | CrossWorldReference
  | NativeEngineFailure
deriving DecidableEq, Repr

/-- Modelled from the spec: the joint constraint variants of the family.
The spec's enumeration (and the `msp_joint_<variant>.h` headers of the
source) list eleven variants. -/
inductive JointVariant where
  | ballAndSocket
  | corkscrew
  | fixed
  | hinge
  | motor
  | piston
  | servo
  | slider
  | spring
  | universal
  | upVector
deriving DecidableEq, Repr, Fintype

/-- Modelled from the spec: the `supports_motor` capability query —
`set_motor_params` applies to the motor/servo/piston variants only. -/
def JointVariant.supportsMotor : JointVariant → Bool
  | .motor => true
  | .servo => true
  | .piston => true
  | _ => false

/-- Modelled from the spec: the `supports_limits` capability query.  The
spec constrains `fixed` (no limits) and `hinge` (has limits); the other
entries follow the usual capability of each constraint kind and no claim
depends on them. -/
def JointVariant.supportsLimits : JointVariant → Bool
  | .fixed => false
  | .ballAndSocket => false
  | .motor => false
  | .upVector => false
  | _ => true

/-- Modelled from the spec: a World registry entry — liveness flag,
whether the native world handle has been released, and the simulation
clock. -/
structure WorldE where
  alive : Bool
  nativeReleased : Bool
  time : Nat
deriving DecidableEq, Repr

/-- Modelled from the spec: a CollisionShape registry entry — liveness
flag, native-release flag, and the reference count of attaching bodies. -/
structure ShapeE where
  alive : Bool
  nativeReleased : Bool
  refCount : Nat
deriving DecidableEq, Repr

/-- Modelled from the spec: a Body registry entry — liveness flag,
native-release flag, the owning World id, the attached CollisionShape
reference (shared, not owned) and the mass. -/
structure BodyE where
  alive : Bool
  nativeReleased : Bool
  world : Nat
  shape : Option Nat
  mass : Int
deriving DecidableEq, Repr

/-- Modelled from the spec: a Joint registry entry — liveness flag,
native-release flag, owning World id, variant tag, the two Body references
(the second may be absent, denoting attachment to a fixed frame) and the
per-variant parameters. -/
structure JointE where
  alive : Bool
  nativeReleased : Bool
  world : Nat
  variant : JointVariant
  bodyA : Nat
  bodyB : Option Nat
  limitLo : Int
  limitHi : Int
  motorTarget : Int
  motorForce : Int
deriving DecidableEq, Repr

/-- Modelled from the spec: the Handle Registry — handle ids are drawn
from one counter; each kind of entry has its own table keyed by handle
id. -/
structure AState where
  nextId : Nat
  worlds : Nat → Option WorldE
  shapes : Nat → Option ShapeE
  bodies : Nat → Option BodyE
  joints : Nat → Option JointE

/-- Point update of a registry table. -/
def upd {α : Type} (m : Nat → Option α) (i : Nat) (v : α) : Nat → Option α :=
  fun j => if j = i then some v else m j

/-- The empty registry. -/
def initState : AState :=
  ⟨0, fun _ => none, fun _ => none, fun _ => none, fun _ => none⟩

/-- The four kinds of script-visible handles. -/
inductive HKind where
  | world
  | shape
  | body
  | joint
deriving DecidableEq, Repr

/-- Modelled from the spec: the registry's `is_alive(handle-id)` query. -/
def handleAlive (s : AState) (k : HKind) (h : Nat) : Bool :=
  match k with
  | .world => match s.worlds h with | some e => e.alive | none => false
  | .shape => match s.shapes h with | some e => e.alive | none => false
  | .body => match s.bodies h with | some e => e.alive | none => false
  | .joint => match s.joints h with | some e => e.alive | none => false

/-- Modelled from the spec: the registry's `resolve(handle-id)` — returns
the native handle (modelled by the id itself) of a live entry and fails
with `InvalidHandle` otherwise. -/
def resolveH (s : AState) (k : HKind) (h : Nat) : Except Err Nat :=
  if handleAlive s k h then .ok h else .error .InvalidHandle

/-- Mark a World entry invalid, its native handle released. -/
def killW (e : WorldE) : WorldE :=
  { e with alive := false, nativeReleased := true }

/-- Mark a Shape entry invalid, its native geometry released; releasing
drops all outstanding references. -/
def killS (_e : ShapeE) : ShapeE :=
  ⟨false, true, 0⟩

/-- Mark a Body entry invalid, its native handle released. -/
def killB (e : BodyE) : BodyE :=
  { e with alive := false, nativeReleased := true }

/-- Mark a Joint entry invalid, its native handle released. -/
def killJ (e : JointE) : JointE :=
  { e with alive := false, nativeReleased := true }

/-- Modelled from the spec: the registry's `invalidate(handle-id)` —
idempotent teardown: invalidating an already-invalid (or never-created)
handle is a no-op success. -/
def invalidateH (s : AState) (k : HKind) (h : Nat) : Except Err Unit × AState :=
  match k with
  | .world =>
    match s.worlds h with
    | some e =>
      if e.alive then (.ok (), { s with worlds := upd s.worlds h (killW e) })
      else (.ok (), s)
    | none => (.ok (), s)
  | .shape =>
    match s.shapes h with
    | some e =>
      if e.alive then (.ok (), { s with shapes := upd s.shapes h (killS e) })
      else (.ok (), s)
    | none => (.ok (), s)
  | .body =>
    match s.bodies h with
    | some e =>
      if e.alive then (.ok (), { s with bodies := upd s.bodies h (killB e) })
      else (.ok (), s)
    | none => (.ok (), s)
  | .joint =>
    match s.joints h with
    | some e =>
      if e.alive then (.ok (), { s with joints := upd s.joints h (killJ e) })
      else (.ok (), s)
    | none => (.ok (), s)

/-- Modelled from the spec: `World.create` — registers a fresh live world. -/
def worldCreate (s : AState) : Nat × AState :=
  (s.nextId,
   { s with nextId := s.nextId + 1,
            worlds := upd s.worlds s.nextId ⟨true, false, 0⟩ })

/-- Modelled from the spec: `CollisionShape.create` — registers a fresh
live shape with reference count zero. -/
def shapeCreate (s : AState) : Nat × AState :=
  (s.nextId,
   { s with nextId := s.nextId + 1,
            shapes := upd s.shapes s.nextId ⟨true, false, 0⟩ })

/-- Modelled from the spec: drop one reference from a shape's count; the
native geometry is released exactly when the count reaches zero. -/
def shapeDecrement (s : AState) (sid : Nat) : AState :=
  match s.shapes sid with
  | none => s
  | some se =>
    if se.refCount - 1 = 0 then { s with shapes := upd s.shapes sid ⟨false, true, 0⟩ }
    else { s with shapes := upd s.shapes sid { se with refCount := se.refCount - 1 } }

/-- Modelled from the spec: `Body.create(world, shape, mass, pose)` —
fails with `InvalidHandle` if the world or the shape is not alive, with
`InvalidParameter` on non-positive mass; on success registers a fresh
body and increments the shape's reference count. -/
def bodyCreate (s : AState) (w sid : Nat) (mass : Int) : Except Err Nat × AState :=
  match s.worlds w with
  | none => (.error .InvalidHandle, s)
  | some we =>
    if we.alive then
      match s.shapes sid with
      | none => (.error .InvalidHandle, s)
      | some se =>
        if se.alive then
          if mass ≤ 0 then (.error .InvalidParameter, s)
          else
            (.ok s.nextId,
             { s with nextId := s.nextId + 1,
                      bodies := upd s.bodies s.nextId ⟨true, false, w, some sid, mass⟩,
                      shapes := upd s.shapes sid { se with refCount := se.refCount + 1 } })
        else (.error .InvalidHandle, s)
    else (.error .InvalidHandle, s)

/-- Modelled from the spec: `CollisionShape.attach(shape, body)` —
increments the shape's reference count; changing a body's shape means
detaching the old one first, so attaching over an existing shape fails
with `InvalidParameter`. -/
def shapeAttach (s : AState) (sid b : Nat) : Except Err Unit × AState :=
  match s.shapes sid with
  | none => (.error .InvalidHandle, s)
  | some se =>
    if se.alive then
      match s.bodies b with
      | none => (.error .InvalidHandle, s)
      | some be =>
        if be.alive then
          match be.shape with
          | some _ => (.error .InvalidParameter, s)
          | none =>
            (.ok (),
             { s with bodies := upd s.bodies b { be with shape := some sid },
                      shapes := upd s.shapes sid { se with refCount := se.refCount + 1 } })
        else (.error .InvalidHandle, s)
    else (.error .InvalidHandle, s)

/-- Modelled from the spec: `CollisionShape.detach(shape, body)` —
decrements the shape's reference count, releasing the native geometry
exactly when the count reaches zero. -/
def shapeDetach (s : AState) (sid b : Nat) : Except Err Unit × AState :=
  match s.shapes sid with
  | none => (.error .InvalidHandle, s)
  | some se =>
    if se.alive then
      match s.bodies b with
      | none => (.error .InvalidHandle, s)
      | some be =>
        if be.alive then
          if be.shape = some sid then
            (.ok (),
             shapeDecrement { s with bodies := upd s.bodies b { be with shape := none } } sid)
          else (.error .InvalidParameter, s)
        else (.error .InvalidHandle, s)
    else (.error .InvalidHandle, s)

/-- Modelled from the spec: invalidate every Joint referencing a given
Body (a Joint is automatically invalidated if either referenced Body is
destroyed). -/
def killJointsByBody (s : AState) (b : Nat) : AState :=
  { s with joints := fun j =>
      match s.joints j with
      | none => none
      | some e => if e.bodyA = b ∨ e.bodyB = some b then some (killJ e) else some e }

/-- Modelled from the spec: invalidate a live Body and drop its reference
to the attached shape (decrementing the shape's count, releasing the
geometry at zero).  A dead or never-created body is left untouched. -/
def killBodyBookkeep (s : AState) (b : Nat) : AState :=
  match s.bodies b with
  | none => s
  | some be =>
    if be.alive then
      let s1 := { s with bodies := upd s.bodies b (killB be) }
      match be.shape with
      | some sid => shapeDecrement s1 sid
      | none => s1
    else s

/-- Modelled from the spec: `Body.destroy` — idempotent teardown:
invalidates every Joint referencing the body, then the body itself,
decrementing its shape's reference count; a no-op success on an
already-invalid handle. -/
def bodyDestroy (s : AState) (b : Nat) : Except Err Unit × AState :=
  match s.bodies b with
  | none => (.ok (), s)
  | some be =>
    if be.alive then (.ok (), killBodyBookkeep (killJointsByBody s b) b)
    else (.ok (), s)

/-- Modelled from the spec: `Joint.destroy` — idempotent teardown. -/
def jointDestroy (s : AState) (j : Nat) : Except Err Unit × AState :=
  match s.joints j with
  | none => (.ok (), s)
  | some e =>
    if e.alive then (.ok (), { s with joints := upd s.joints j (killJ e) })
    else (.ok (), s)

/-- One step of the cascade performed by `World.destroy`, as observable
events: invalidation of an owned Joint, invalidation of an owned Body, and
the final release of the native world handle. -/
inductive DestroyEv where
  | invalidateJoint (j : Nat)
  | invalidateBody (b : Nat)
  | releaseWorldNative
deriving DecidableEq, Repr

/-- The live Joints owned by a world, by ascending handle id. -/
def ownedJoints (s : AState) (w : Nat) : List Nat :=
  (List.range s.nextId).filter fun j =>
    match s.joints j with
    | some e => e.alive && e.world == w
    | none => false

/-- The live Bodies owned by a world, by ascending handle id. -/
def ownedBodies (s : AState) (w : Nat) : List Nat :=
  (List.range s.nextId).filter fun b =>
    match s.bodies b with
    | some e => e.alive && e.world == w
    | none => false

/-- Modelled from the spec: invalidate every Joint owned by a world. -/
def killJointsByWorld (s : AState) (w : Nat) : AState :=
  { s with joints := fun j =>
      match s.joints j with
      | none => none
      | some e => if e.world = w then some (killJ e) else some e }

/-- Result of `World.destroy`: outcome, final state, and the cascade
trace. -/
structure WDestroyResult where
  res : Except Err Unit
  state : AState
  trace : List DestroyEv

/-- Modelled from the spec: `World.destroy` — cascades: every owned Joint
is invalidated, then every owned Body is invalidated (each dropping its
shape reference), then the native world handle is released.  Idempotent:
a no-op success on an already-invalid handle. -/
def worldDestroy (s : AState) (w : Nat) : WDestroyResult :=
  match s.worlds w with
  | none => ⟨.ok (), s, []⟩
  | some we =>
    if we.alive then
      let js := ownedJoints s w
      let bs := ownedBodies s w
      let s1 := killJointsByWorld s w
      let s2 := bs.foldl killBodyBookkeep s1
      let s3 := { s2 with worlds := upd s2.worlds w (killW we) }
      ⟨.ok (), s3,
       js.map DestroyEv.invalidateJoint ++ bs.map DestroyEv.invalidateBody
         ++ [DestroyEv.releaseWorldNative]⟩
    else ⟨.ok (), s, []⟩

/-- Modelled from the spec: `World.step` — fails with `InvalidHandle` on a
dead world; advances the simulation clock otherwise (the numerical solve
is the opaque native facade). -/
def worldStep (s : AState) (w : Nat) : Except Err Unit × AState :=
  match s.worlds w with
  | none => (.error .InvalidHandle, s)
  | some we =>
    if we.alive then
      (.ok (), { s with worlds := upd s.worlds w { we with time := we.time + 1 } })
    else (.error .InvalidHandle, s)

/-- Modelled from the spec: `Body.set_mass` — fails with `InvalidHandle`
on a dead body and with `InvalidParameter` on non-positive mass. -/
def bodySetMass (s : AState) (b : Nat) (m : Int) : Except Err Unit × AState :=
  match s.bodies b with
  | none => (.error .InvalidHandle, s)
  | some be =>
    if be.alive then
      if m ≤ 0 then (.error .InvalidParameter, s)
      else (.ok (), { s with bodies := upd s.bodies b { be with mass := m } })
    else (.error .InvalidHandle, s)

/-- Modelled from the spec: `Joint.create(world, body_a, body_b_or_none,
variant)` — fails with `InvalidHandle` if the world or a referenced body
is not alive, with `CrossWorldReference` if the referenced bodies do not
both belong to the given world; atomic on failure (no state change). -/
def jointCreate (s : AState) (w a : Nat) (bo : Option Nat) (v : JointVariant) :
    Except Err Nat × AState :=
  match s.worlds w with
  | none => (.error .InvalidHandle, s)
  | some we =>
    if we.alive then
      match s.bodies a with
      | none => (.error .InvalidHandle, s)
      | some ea =>
        if ea.alive then
          match bo with
          | none =>
            if ea.world = w then
              (.ok s.nextId,
               { s with nextId := s.nextId + 1,
                        joints := upd s.joints s.nextId ⟨true, false, w, v, a, none, 0, 0, 0, 0⟩ })
            else (.error .CrossWorldReference, s)
          | some b =>
            match s.bodies b with
            | none => (.error .InvalidHandle, s)
            | some eb =>
              if eb.alive then
                if ea.world = w ∧ eb.world = w then
                  (.ok s.nextId,
                   { s with nextId := s.nextId + 1,
                            joints := upd s.joints s.nextId
                              ⟨true, false, w, v, a, some b, 0, 0, 0, 0⟩ })
                else (.error .CrossWorldReference, s)
              else (.error .InvalidHandle, s)
        else (.error .InvalidHandle, s)
    else (.error .InvalidHandle, s)

/-- Modelled from the spec: `Joint.set_limits(min, max)` — fails with
`InvalidHandle` on a dead joint and with `UnsupportedOperation` on a
variant without limits. -/
def jointSetLimits (s : AState) (j : Nat) (lo hi : Int) : Except Err Unit × AState :=
  match s.joints j with
  | none => (.error .InvalidHandle, s)
  | some e =>
    if e.alive then
      if e.variant.supportsLimits then
        (.ok (), { s with joints := upd s.joints j { e with limitLo := lo, limitHi := hi } })
      else (.error .UnsupportedOperation, s)
    else (.error .InvalidHandle, s)

/-- Modelled from the spec: `Joint.set_motor_params(target, max_force)` —
fails with `InvalidHandle` on a dead joint and with `UnsupportedOperation`
on every variant other than motor/servo/piston. -/
def jointSetMotor (s : AState) (j : Nat) (target force : Int) : Except Err Unit × AState :=
  match s.joints j with
  | none => (.error .InvalidHandle, s)
  | some e =>
    if e.alive then
      if e.variant.supportsMotor then
        (.ok (), { s with joints := upd s.joints j { e with motorTarget := target, motorForce := force } })
      else (.error .UnsupportedOperation, s)
    else (.error .InvalidHandle, s)

/-- The public operations of the adapter, each carrying its handle
arguments. -/
inductive Op where
  | opWorldCreate
  | opWorldDestroy (w : Nat)
  | opWorldStep (w : Nat)
  | opShapeCreate
  | opShapeAttach (sid b : Nat)
  | opShapeDetach (sid b : Nat)
  | opBodyCreate (w sid : Nat) (mass : Int)
  | opBodyDestroy (b : Nat)
  | opBodySetMass (b : Nat) (m : Int)
  | opJointCreate (w a : Nat) (bo : Option Nat) (v : JointVariant)
  | opJointDestroy (j : Nat)
  | opJointSetLimits (j : Nat) (lo hi : Int)
  | opJointSetMotor (j : Nat) (target force : Int)
  | opInvalidate (k : HKind) (h : Nat)
  | opResolve (k : HKind) (h : Nat)
deriving DecidableEq, Repr

/-- The registry handles an operation acts on. -/
def Op.targets : Op → List (HKind × Nat)
  | .opWorldCreate => []
  | .opWorldDestroy w => [(.world, w)]
  | .opWorldStep w => [(.world, w)]
  | .opShapeCreate => []
  | .opShapeAttach sid b => [(.shape, sid), (.body, b)]
  | .opShapeDetach sid b => [(.shape, sid), (.body, b)]
  | .opBodyCreate w sid _ => [(.world, w), (.shape, sid)]
  | .opBodyDestroy b => [(.body, b)]
  | .opBodySetMass b _ => [(.body, b)]
  | .opJointCreate w a bo _ =>
    (.world, w) :: (.body, a) :: (match bo with | some b => [(.body, b)] | none => [])
  | .opJointDestroy j => [(.joint, j)]
  | .opJointSetLimits j _ _ => [(.joint, j)]
  | .opJointSetMotor j _ _ => [(.joint, j)]
  | .opInvalidate k h => [(k, h)]
  | .opResolve k h => [(k, h)]

/-- Whether an operation is idempotent teardown (`destroy`/`invalidate`,
spec section 7). -/
def Op.isTeardown : Op → Bool
  | .opWorldDestroy _ => true
  | .opBodyDestroy _ => true
  | .opJointDestroy _ => true
  | .opInvalidate _ _ => true
  | _ => false

/-- Result of a public operation: outcome, next state, and the native
handles the call dereferenced. -/
structure OpResult where
  res : Except Err Unit
  state : AState
  derefs : List (HKind × Nat)

/-- Drop the value of a fallible result, keeping the outcome. -/
def toUnitRes {α : Type} : Except Err α → Except Err Unit
  | .ok _ => .ok ()
  | .error e => .error e

/-- Modelled from the spec: the adapter's public operation dispatcher.
Every operation first checks liveness through the registry; native handles
are dereferenced only after all checks pass. -/
def applyOp (s : AState) (op : Op) : OpResult :=
  match op with
  | .opWorldCreate => ⟨.ok (), (worldCreate s).2, []⟩
  | .opWorldDestroy w =>
    let r := worldDestroy s w
    ⟨r.res, r.state, if handleAlive s .world w then [(.world, w)] else []⟩
  | .opWorldStep w =>
    let r := worldStep s w
    ⟨r.1, r.2, match r.1 with | .ok _ => [(.world, w)] | .error _ => []⟩
  | .opShapeCreate => ⟨.ok (), (shapeCreate s).2, []⟩
  | .opShapeAttach sid b =>
    let r := shapeAttach s sid b
    ⟨r.1, r.2, match r.1 with | .ok _ => [(.shape, sid), (.body, b)] | .error _ => []⟩
  | .opShapeDetach sid b =>
    let r := shapeDetach s sid b
    ⟨r.1, r.2, match r.1 with | .ok _ => [(.shape, sid), (.body, b)] | .error _ => []⟩
  | .opBodyCreate w sid m =>
    let r := bodyCreate s w sid m
    ⟨toUnitRes r.1, r.2,
     match r.1 with | .ok _ => [(.world, w), (.shape, sid)] | .error _ => []⟩
  | .opBodyDestroy b =>
    let r := bodyDestroy s b
    ⟨r.1, r.2, if handleAlive s .body b then [(.body, b)] else []⟩
  | .opBodySetMass b m =>
    let r := bodySetMass s b m
    ⟨r.1, r.2, match r.1 with | .ok _ => [(.body, b)] | .error _ => []⟩
  | .opJointCreate w a bo v =>
    let r := jointCreate s w a bo v
    ⟨toUnitRes r.1, r.2,
     match r.1 with
     | .ok _ =>
       (.world, w) :: (.body, a) :: (match bo with | some b => [(.body, b)] | none => [])
     | .error _ => []⟩
  | .opJointDestroy j =>
    let r := jointDestroy s j
    ⟨r.1, r.2, if handleAlive s .joint j then [(.joint, j)] else []⟩
  | .opJointSetLimits j lo hi =>
    let r := jointSetLimits s j lo hi
    ⟨r.1, r.2, match r.1 with | .ok _ => [(.joint, j)] | .error _ => []⟩
  | .opJointSetMotor j t f =>
    let r := jointSetMotor s j t f
    ⟨r.1, r.2, match r.1 with | .ok _ => [(.joint, j)] | .error _ => []⟩
  | .opInvalidate k h =>
    let r := invalidateH s k h
    ⟨r.1, r.2, if handleAlive s k h then [(k, h)] else []⟩
  | .opResolve k h =>
    ⟨toUnitRes (resolveH s k h), s,
     match resolveH s k h with | .ok _ => [(k, h)] | .error _ => []⟩

/-- The states reachable from the empty registry through public
operations. -/
inductive Reach : AState → Prop where
  | init : Reach initState
  | step (s : AState) (op : Op) : Reach s → Reach (applyOp s op).state

/-! ### Behaviour of each operation on a dead handle -/

theorem upd_self {α : Type} (m : Nat → Option α) (i : Nat) (v : α) :
    upd m i v i = some v := by
  simp [upd]

theorem upd_ne {α : Type} (m : Nat → Option α) (i j : Nat) (v : α) (h : j ≠ i) :
    upd m i v j = m j := by
  simp [upd, h]

theorem worldAlive_false_iff (s : AState) (w : Nat) :
    handleAlive s .world w = false ↔
      s.worlds w = none ∨ ∃ e, s.worlds w = some e ∧ e.alive = false := by
  cases hw : s.worlds w with
  | none => simp [handleAlive, hw]
  | some e => simp [handleAlive, hw]

theorem worldStep_dead (s : AState) (w : Nat) (hd : handleAlive s .world w = false) :
    worldStep s w = (.error .InvalidHandle, s) := by
  rcases (worldAlive_false_iff s w).mp hd with hw | ⟨e, hw, he⟩
  · simp [worldStep, hw]
  · simp [worldStep, hw, he]

theorem worldDestroy_dead (s : AState) (w : Nat) (hd : handleAlive s .world w = false) :
    worldDestroy s w = ⟨.ok (), s, []⟩ := by
  rcases (worldAlive_false_iff s w).mp hd with hw | ⟨e, hw, he⟩
  · simp [worldDestroy, hw]
  · simp [worldDestroy, hw, he]

theorem shapeAlive_false_iff (s : AState) (h : Nat) :
    handleAlive s .shape h = false ↔
      s.shapes h = none ∨ ∃ e, s.shapes h = some e ∧ e.alive = false := by
  cases hw : s.shapes h with
  | none => simp [handleAlive, hw]
  | some e => simp [handleAlive, hw]

theorem bodyAlive_false_iff (s : AState) (h : Nat) :
    handleAlive s .body h = false ↔
      s.bodies h = none ∨ ∃ e, s.bodies h = some e ∧ e.alive = false := by
  cases hw : s.bodies h with
  | none => simp [handleAlive, hw]
  | some e => simp [handleAlive, hw]

theorem jointAlive_false_iff (s : AState) (h : Nat) :
    handleAlive s .joint h = false ↔
      s.joints h = none ∨ ∃ e, s.joints h = some e ∧ e.alive = false := by
  cases hw : s.joints h with
  | none => simp [handleAlive, hw]
  | some e => simp [handleAlive, hw]

theorem shapeAttach_dead (s : AState) (sid b : Nat)
    (hd : handleAlive s .shape sid = false ∨ handleAlive s .body b = false) :
    shapeAttach s sid b = (.error .InvalidHandle, s) := by
  cases hs : s.shapes sid with
  | none => simp [shapeAttach, hs]
  | some se =>
    by_cases hsa : se.alive
    · have hb : handleAlive s .body b = false := by
        rcases hd with hd | hd
        · exact absurd hd (by simp [handleAlive, hs, hsa])
        · exact hd
      rcases (bodyAlive_false_iff s b).mp hb with hbo | ⟨be, hbo, hba⟩
      · simp [shapeAttach, hs, hsa, hbo]
      · simp [shapeAttach, hs, hsa, hbo, hba]
    · simp [shapeAttach, hs, hsa]

theorem shapeDetach_dead (s : AState) (sid b : Nat)
    (hd : handleAlive s .shape sid = false ∨ handleAlive s .body b = false) :
    shapeDetach s sid b = (.error .InvalidHandle, s) := by
  cases hs : s.shapes sid with
  | none => simp [shapeDetach, hs]
  | some se =>
    by_cases hsa : se.alive
    · have hb : handleAlive s .body b = false := by
        rcases hd with hd | hd
        · exact absurd hd (by simp [handleAlive, hs, hsa])
        · exact hd
      rcases (bodyAlive_false_iff s b).mp hb with hbo | ⟨be, hbo, hba⟩
      · simp [shapeDetach, hs, hsa, hbo]
      · simp [shapeDetach, hs, hsa, hbo, hba]
    · simp [shapeDetach, hs, hsa]

theorem bodyCreate_dead (s : AState) (w sid : Nat) (m : Int)
    (hd : handleAlive s .world w = false ∨ handleAlive s .shape sid = false) :
    bodyCreate s w sid m = (.error .InvalidHandle, s) := by
  cases hw : s.worlds w with
  | none => simp [bodyCreate, hw]
  | some we =>
    by_cases hwa : we.alive
    · have hs : handleAlive s .shape sid = false := by
        rcases hd with hd | hd
        · exact absurd hd (by simp [handleAlive, hw, hwa])
        · exact hd
      rcases (shapeAlive_false_iff s sid).mp hs with hso | ⟨se, hso, hsa⟩
      · simp [bodyCreate, hw, hwa, hso]
      · simp [bodyCreate, hw, hwa, hso, hsa]
    · simp [bodyCreate, hw, hwa]

theorem bodyDestroy_dead (s : AState) (b : Nat) (hd : handleAlive s .body b = false) :
    bodyDestroy s b = (.ok (), s) := by
  rcases (bodyAlive_false_iff s b).mp hd with hbo | ⟨be, hbo, hba⟩
  · simp [bodyDestroy, hbo]
  · simp [bodyDestroy, hbo, hba]

theorem bodySetMass_dead (s : AState) (b : Nat) (m : Int)
    (hd : handleAlive s .body b = false) :
    bodySetMass s b m = (.error .InvalidHandle, s) := by
  rcases (bodyAlive_false_iff s b).mp hd with hbo | ⟨be, hbo, hba⟩
  · simp [bodySetMass, hbo]
  · simp [bodySetMass, hbo, hba]

theorem jointDestroy_dead (s : AState) (j : Nat) (hd : handleAlive s .joint j = false) :
    jointDestroy s j = (.ok (), s) := by
  rcases (jointAlive_false_iff s j).mp hd with hjo | ⟨e, hjo, hja⟩
  · simp [jointDestroy, hjo]
  · simp [jointDestroy, hjo, hja]

theorem jointSetLimits_dead (s : AState) (j : Nat) (lo hi : Int)
    (hd : handleAlive s .joint j = false) :
    jointSetLimits s j lo hi = (.error .InvalidHandle, s) := by
  rcases (jointAlive_false_iff s j).mp hd with hjo | ⟨e, hjo, hja⟩
  · simp [jointSetLimits, hjo]
  · simp [jointSetLimits, hjo, hja]

theorem jointSetMotor_dead (s : AState) (j : Nat) (t f : Int)
    (hd : handleAlive s .joint j = false) :
    jointSetMotor s j t f = (.error .InvalidHandle, s) := by
  rcases (jointAlive_false_iff s j).mp hd with hjo | ⟨e, hjo, hja⟩
  · simp [jointSetMotor, hjo]
  · simp [jointSetMotor, hjo, hja]

theorem jointCreate_dead (s : AState) (w a : Nat) (bo : Option Nat) (v : JointVariant)
    (hd : handleAlive s .world w = false ∨ handleAlive s .body a = false ∨
      (∃ b, bo = some b ∧ handleAlive s .body b = false)) :
    jointCreate s w a bo v = (.error .InvalidHandle, s) := by
  cases hw : s.worlds w with
  | none => simp [jointCreate, hw]
  | some we =>
    by_cases hwa : we.alive
    · have hd' : handleAlive s .body a = false ∨
          ∃ b, bo = some b ∧ handleAlive s .body b = false := by
        rcases hd with hd | hd | hd
        · exact absurd hd (by simp [handleAlive, hw, hwa])
        · exact Or.inl hd
        · exact Or.inr hd
      cases ha : s.bodies a with
      | none => simp [jointCreate, hw, hwa, ha]
      | some ea =>
        by_cases haa : ea.alive
        · have hb : ∃ b, bo = some b ∧ handleAlive s .body b = false := by
            rcases hd' with hd' | hd'
            · exact absurd hd' (by simp [handleAlive, ha, haa])
            · exact hd'
          rcases hb with ⟨b, hbo, hbd⟩
          subst hbo
          rcases (bodyAlive_false_iff s b).mp hbd with hbn | ⟨eb, hbn, hbf⟩
          · simp [jointCreate, hw, hwa, ha, haa, hbn]
          · simp [jointCreate, hw, hwa, ha, haa, hbn, hbf]
        · simp [jointCreate, hw, hwa, ha, haa]
    · simp [jointCreate, hw, hwa]

theorem invalidateH_dead (s : AState) (k : HKind) (h : Nat)
    (hd : handleAlive s k h = false) :
    invalidateH s k h = (.ok (), s) := by
  cases k with
  | world =>
    rcases (worldAlive_false_iff s h).mp hd with hn | ⟨e, hn, hf⟩
    · simp [invalidateH, hn]
    · simp [invalidateH, hn, hf]
  | shape =>
    rcases (shapeAlive_false_iff s h).mp hd with hn | ⟨e, hn, hf⟩
    · simp [invalidateH, hn]
    · simp [invalidateH, hn, hf]
  | body =>
    rcases (bodyAlive_false_iff s h).mp hd with hn | ⟨e, hn, hf⟩
    · simp [invalidateH, hn]
    · simp [invalidateH, hn, hf]
  | joint =>
    rcases (jointAlive_false_iff s h).mp hd with hn | ⟨e, hn, hf⟩
    · simp [invalidateH, hn]
    · simp [invalidateH, hn, hf]

theorem resolveH_dead (s : AState) (k : HKind) (h : Nat)
    (hd : handleAlive s k h = false) :
    resolveH s k h = .error .InvalidHandle := by
  simp [resolveH, hd]

/-- Central liveness check: a public operation one of whose handle
arguments is dead dereferences no native handle, and it either fails with
`InvalidHandle` (any non-teardown operation) or is a no-op success
(idempotent teardown). -/
theorem applyOp_deadTarget (s : AState) (op : Op) (k : HKind) (h : Nat)
    (hmem : (k, h) ∈ op.targets) (hd : handleAlive s k h = false) :
    (applyOp s op).derefs = [] ∧
      (op.isTeardown = false → (applyOp s op).res = .error .InvalidHandle) ∧
      (op.isTeardown = true → (applyOp s op).res = .ok ()) := by
  cases op with
  | opWorldCreate => simp [Op.targets] at hmem
  | opWorldDestroy w =>
    simp [Op.targets] at hmem
    obtain ⟨rfl, rfl⟩ := hmem
    simp [applyOp, worldDestroy_dead s h hd, hd, Op.isTeardown]
  | opWorldStep w =>
    simp [Op.targets] at hmem
    obtain ⟨rfl, rfl⟩ := hmem
    simp [applyOp, worldStep_dead s h hd, Op.isTeardown]
  | opShapeCreate => simp [Op.targets] at hmem
  | opShapeAttach sid b =>
    simp [Op.targets] at hmem
    rcases hmem with ⟨rfl, rfl⟩ | ⟨rfl, rfl⟩
    · simp [applyOp, shapeAttach_dead s h b (Or.inl hd), Op.isTeardown]
    · simp [applyOp, shapeAttach_dead s sid h (Or.inr hd), Op.isTeardown]
  | opShapeDetach sid b =>
    simp [Op.targets] at hmem
    rcases hmem with ⟨rfl, rfl⟩ | ⟨rfl, rfl⟩
    · simp [applyOp, shapeDetach_dead s h b (Or.inl hd), Op.isTeardown]
    · simp [applyOp, shapeDetach_dead s sid h (Or.inr hd), Op.isTeardown]
  | opBodyCreate w sid m =>
    simp [Op.targets] at hmem
    rcases hmem with ⟨rfl, rfl⟩ | ⟨rfl, rfl⟩
    · simp [applyOp, bodyCreate_dead s h sid m (Or.inl hd), Op.isTeardown, toUnitRes]
    · simp [applyOp, bodyCreate_dead s w h m (Or.inr hd), Op.isTeardown, toUnitRes]
  | opBodyDestroy b =>
    simp [Op.targets] at hmem
    obtain ⟨rfl, rfl⟩ := hmem
    simp [applyOp, bodyDestroy_dead s h hd, hd, Op.isTeardown]
  | opBodySetMass b m =>
    simp [Op.targets] at hmem
    obtain ⟨rfl, rfl⟩ := hmem
    simp [applyOp, bodySetMass_dead s h m hd, Op.isTeardown]
  | opJointCreate w a bo v =>
    cases bo with
    | none =>
      simp [Op.targets] at hmem
      rcases hmem with ⟨rfl, rfl⟩ | ⟨rfl, rfl⟩
      · simp [applyOp, jointCreate_dead s h a none v (Or.inl hd), Op.isTeardown, toUnitRes]
      · simp [applyOp, jointCreate_dead s w h none v (Or.inr (Or.inl hd)), Op.isTeardown,
          toUnitRes]
    | some b =>
      simp [Op.targets] at hmem
      rcases hmem with ⟨rfl, rfl⟩ | ⟨rfl, rfl⟩ | ⟨rfl, rfl⟩
      · simp [applyOp, jointCreate_dead s h a (some b) v (Or.inl hd), Op.isTeardown, toUnitRes]
      · simp [applyOp, jointCreate_dead s w h (some b) v (Or.inr (Or.inl hd)), Op.isTeardown,
          toUnitRes]
      · simp [applyOp, jointCreate_dead s w a (some h) v (Or.inr (Or.inr ⟨h, rfl, hd⟩)),
          Op.isTeardown, toUnitRes]
  | opJointDestroy j =>
    simp [Op.targets] at hmem
    obtain ⟨rfl, rfl⟩ := hmem
    simp [applyOp, jointDestroy_dead s h hd, hd, Op.isTeardown]
  | opJointSetLimits j lo hi =>
    simp [Op.targets] at hmem
    obtain ⟨rfl, rfl⟩ := hmem
    simp [applyOp, jointSetLimits_dead s h lo hi hd, Op.isTeardown]
  | opJointSetMotor j t f =>
    simp [Op.targets] at hmem
    obtain ⟨rfl, rfl⟩ := hmem
    simp [applyOp, jointSetMotor_dead s h t f hd, Op.isTeardown]
  | opInvalidate k0 h0 =>
    simp [Op.targets] at hmem
    obtain ⟨rfl, rfl⟩ := hmem
    simp [applyOp, invalidateH_dead s k h hd, hd, Op.isTeardown]
  | opResolve k0 h0 =>
    simp [Op.targets] at hmem
    obtain ⟨rfl, rfl⟩ := hmem
    simp [applyOp, resolveH_dead s k h hd, Op.isTeardown, toUnitRes]

/-! ### Registry invariants, preserved by every public operation -/

/-- The registry invariants of the spec's data model: the liveness flag of
every entry is false exactly when its native handle has been released, a
released shape holds no references, and no entry lives at or above the id
counter. -/
structure Inv (s : AState) : Prop where
  flagW : ∀ h e, s.worlds h = some e → e.alive = !e.nativeReleased
  flagS : ∀ h e, s.shapes h = some e → e.alive = !e.nativeReleased
  flagB : ∀ h e, s.bodies h = some e → e.alive = !e.nativeReleased
  flagJ : ∀ h e, s.joints h = some e → e.alive = !e.nativeReleased
  shapeZero : ∀ h e, s.shapes h = some e → e.nativeReleased = true → e.refCount = 0
  freshW : ∀ h, s.nextId ≤ h → s.worlds h = none
  freshS : ∀ h, s.nextId ≤ h → s.shapes h = none
  freshB : ∀ h, s.nextId ≤ h → s.bodies h = none
  freshJ : ∀ h, s.nextId ≤ h → s.joints h = none

theorem upd_cases {α : Type} {m : Nat → Option α} {i j : Nat} {v e : α}
    (h : upd m i v j = some e) : (j = i ∧ e = v) ∨ (j ≠ i ∧ m j = some e) := by
  by_cases hji : j = i
  · subst hji
    rw [upd_self] at h
    exact Or.inl ⟨rfl, (Option.some.inj h).symm⟩
  · exact Or.inr ⟨hji, by rwa [upd_ne _ _ _ _ hji] at h⟩

theorem lt_nextId_of_worlds {s : AState} {w : Nat} {e : WorldE}
    (hs : Inv s) (h : s.worlds w = some e) : w < s.nextId := by
  by_contra hc
  rw [hs.freshW w (Nat.le_of_not_lt hc)] at h
  exact Option.noConfusion h

theorem lt_nextId_of_shapes {s : AState} {w : Nat} {e : ShapeE}
    (hs : Inv s) (h : s.shapes w = some e) : w < s.nextId := by
  by_contra hc
  rw [hs.freshS w (Nat.le_of_not_lt hc)] at h
  exact Option.noConfusion h

theorem lt_nextId_of_bodies {s : AState} {w : Nat} {e : BodyE}
    (hs : Inv s) (h : s.bodies w = some e) : w < s.nextId := by
  by_contra hc
  rw [hs.freshB w (Nat.le_of_not_lt hc)] at h
  exact Option.noConfusion h

theorem lt_nextId_of_joints {s : AState} {w : Nat} {e : JointE}
    (hs : Inv s) (h : s.joints w = some e) : w < s.nextId := by
  by_contra hc
  rw [hs.freshJ w (Nat.le_of_not_lt hc)] at h
  exact Option.noConfusion h

theorem shapeDecrement_worlds (s : AState) (sid : Nat) :
    (shapeDecrement s sid).worlds = s.worlds := by
  unfold shapeDecrement
  split
  · rfl
  · split <;> rfl

theorem shapeDecrement_bodies (s : AState) (sid : Nat) :
    (shapeDecrement s sid).bodies = s.bodies := by
  unfold shapeDecrement
  split
  · rfl
  · split <;> rfl

theorem shapeDecrement_joints (s : AState) (sid : Nat) :
    (shapeDecrement s sid).joints = s.joints := by
  unfold shapeDecrement
  split
  · rfl
  · split <;> rfl

theorem shapeDecrement_nextId (s : AState) (sid : Nat) :
    (shapeDecrement s sid).nextId = s.nextId := by
  unfold shapeDecrement
  split
  · rfl
  · split <;> rfl

theorem killBodyBookkeep_worlds (s : AState) (b : Nat) :
    (killBodyBookkeep s b).worlds = s.worlds := by
  unfold killBodyBookkeep
  split
  · rfl
  · split
    · split
      · rw [shapeDecrement_worlds]
      · rfl
    · rfl

theorem killBodyBookkeep_joints (s : AState) (b : Nat) :
    (killBodyBookkeep s b).joints = s.joints := by
  unfold killBodyBookkeep
  split
  · rfl
  · split
    · split
      · rw [shapeDecrement_joints]
      · rfl
    · rfl

theorem killBodyBookkeep_nextId (s : AState) (b : Nat) :
    (killBodyBookkeep s b).nextId = s.nextId := by
  unfold killBodyBookkeep
  split
  · rfl
  · split
    · split
      · rw [shapeDecrement_nextId]
      · rfl
    · rfl

theorem foldl_killBodyBookkeep_worlds (l : List Nat) (s : AState) :
    (l.foldl killBodyBookkeep s).worlds = s.worlds := by
  induction l generalizing s with
  | nil => rfl
  | cons x xs ih => rw [List.foldl_cons, ih, killBodyBookkeep_worlds]

theorem foldl_killBodyBookkeep_joints (l : List Nat) (s : AState) :
    (l.foldl killBodyBookkeep s).joints = s.joints := by
  induction l generalizing s with
  | nil => rfl
  | cons x xs ih => rw [List.foldl_cons, ih, killBodyBookkeep_joints]

theorem foldl_killBodyBookkeep_nextId (l : List Nat) (s : AState) :
    (l.foldl killBodyBookkeep s).nextId = s.nextId := by
  induction l generalizing s with
  | nil => rfl
  | cons x xs ih => rw [List.foldl_cons, ih, killBodyBookkeep_nextId]

theorem inv_updWorlds {s : AState} {w : Nat} {v : WorldE} (hs : Inv s)
    (hw : w < s.nextId) (hv : v.alive = !v.nativeReleased) :
    Inv { s with worlds := upd s.worlds w v } := by
  refine ⟨?_, hs.flagS, hs.flagB, hs.flagJ, hs.shapeZero, ?_, hs.freshS, hs.freshB, hs.freshJ⟩
  · intro h e he
    rcases upd_cases he with ⟨rfl, rfl⟩ | ⟨_, he⟩
    · exact hv
    · exact hs.flagW h e he
  · intro h hh
    dsimp only at hh ⊢
    rw [upd_ne _ _ _ _ (by omega)]
    exact hs.freshW h hh

theorem inv_updShapes {s : AState} {sid : Nat} {v : ShapeE} (hs : Inv s)
    (hw : sid < s.nextId) (hv : v.alive = !v.nativeReleased)
    (hz : v.nativeReleased = true → v.refCount = 0) :
    Inv { s with shapes := upd s.shapes sid v } := by
  refine ⟨hs.flagW, ?_, hs.flagB, hs.flagJ, ?_, hs.freshW, ?_, hs.freshB, hs.freshJ⟩
  · intro h e he
    rcases upd_cases he with ⟨rfl, rfl⟩ | ⟨_, he⟩
    · exact hv
    · exact hs.flagS h e he
  · intro h e he hr
    rcases upd_cases he with ⟨rfl, rfl⟩ | ⟨_, he⟩
    · exact hz hr
    · exact hs.shapeZero h e he hr
  · intro h hh
    dsimp only at hh ⊢
    rw [upd_ne _ _ _ _ (by omega)]
    exact hs.freshS h hh

theorem inv_updBodies {s : AState} {b : Nat} {v : BodyE} (hs : Inv s)
    (hw : b < s.nextId) (hv : v.alive = !v.nativeReleased) :
    Inv { s with bodies := upd s.bodies b v } := by
  refine ⟨hs.flagW, hs.flagS, ?_, hs.flagJ, hs.shapeZero, hs.freshW, hs.freshS, ?_, hs.freshJ⟩
  · intro h e he
    rcases upd_cases he with ⟨rfl, rfl⟩ | ⟨_, he⟩
    · exact hv
    · exact hs.flagB h e he
  · intro h hh
    dsimp only at hh ⊢
    rw [upd_ne _ _ _ _ (by omega)]
    exact hs.freshB h hh

theorem inv_updJoints {s : AState} {j : Nat} {v : JointE} (hs : Inv s)
    (hw : j < s.nextId) (hv : v.alive = !v.nativeReleased) :
    Inv { s with joints := upd s.joints j v } := by
  refine ⟨hs.flagW, hs.flagS, hs.flagB, ?_, hs.shapeZero, hs.freshW, hs.freshS, hs.freshB, ?_⟩
  · intro h e he
    rcases upd_cases he with ⟨rfl, rfl⟩ | ⟨_, he⟩
    · exact hv
    · exact hs.flagJ h e he
  · intro h hh
    dsimp only at hh ⊢
    rw [upd_ne _ _ _ _ (by omega)]
    exact hs.freshJ h hh

theorem inv_shapeDecrement (s : AState) (sid : Nat) (hs : Inv s) :
    Inv (shapeDecrement s sid) := by
  unfold shapeDecrement
  split
  · exact hs
  next se hsh =>
    have hlt : sid < s.nextId := lt_nextId_of_shapes hs hsh
    split
    · exact inv_updShapes hs hlt rfl (fun _ => rfl)
    next hc =>
      refine inv_updShapes hs hlt ?_ ?_
      · exact hs.flagS sid se hsh
      · intro hr
        exact absurd (by simp [hs.shapeZero sid se hsh hr]) hc

theorem inv_killBodyBookkeep (s : AState) (b : Nat) (hs : Inv s) :
    Inv (killBodyBookkeep s b) := by
  unfold killBodyBookkeep
  split
  · exact hs
  next be hbe =>
    split
    · have h1 : Inv { s with bodies := upd s.bodies b (killB be) } :=
        inv_updBodies hs (lt_nextId_of_bodies hs hbe) rfl
      split
      · exact inv_shapeDecrement _ _ h1
      · exact h1
    · exact hs

theorem inv_killJointsByBody (s : AState) (b : Nat) (hs : Inv s) :
    Inv (killJointsByBody s b) := by
  refine ⟨hs.flagW, hs.flagS, hs.flagB, ?_, hs.shapeZero, hs.freshW, hs.freshS, hs.freshB, ?_⟩
  · intro h e he
    simp only [killJointsByBody] at he
    cases hj : s.joints h with
    | none => rw [hj] at he; exact Option.noConfusion he
    | some e0 =>
      rw [hj] at he
      by_cases hp : e0.bodyA = b ∨ e0.bodyB = some b
      · simp only [if_pos hp] at he
        cases he
        rfl
      · simp only [if_neg hp] at he
        rcases Option.some.inj he with rfl
        exact hs.flagJ _ _ hj
  · intro h hh
    simp only [killJointsByBody]
    rw [hs.freshJ h hh]

theorem inv_killJointsByWorld (s : AState) (w : Nat) (hs : Inv s) :
    Inv (killJointsByWorld s w) := by
  refine ⟨hs.flagW, hs.flagS, hs.flagB, ?_, hs.shapeZero, hs.freshW, hs.freshS, hs.freshB, ?_⟩
  · intro h e he
    simp only [killJointsByWorld] at he
    cases hj : s.joints h with
    | none => rw [hj] at he; exact Option.noConfusion he
    | some e0 =>
      rw [hj] at he
      by_cases hp : e0.world = w
      · simp only [if_pos hp] at he
        cases he
        rfl
      · simp only [if_neg hp] at he
        rcases Option.some.inj he with rfl
        exact hs.flagJ _ _ hj
  · intro h hh
    simp only [killJointsByWorld]
    rw [hs.freshJ h hh]

theorem foldl_pres {β : Type} (P : AState → Prop) (f : AState → β → AState)
    (hf : ∀ s b, P s → P (f s b)) :
    ∀ (l : List β) (s : AState), P s → P (l.foldl f s) := by
  intro l
  induction l with
  | nil => intro s hp; exact hp
  | cons x xs ih => intro s hp; exact ih (f s x) (hf s x hp)

theorem inv_bumpNextId (s : AState) (hs : Inv s) : Inv { s with nextId := s.nextId + 1 } := by
  refine ⟨hs.flagW, hs.flagS, hs.flagB, hs.flagJ, hs.shapeZero, ?_, ?_, ?_, ?_⟩ <;>
    · intro h hh
      dsimp only at hh
      first
      | exact hs.freshW h (by omega)
      | exact hs.freshS h (by omega)
      | exact hs.freshB h (by omega)
      | exact hs.freshJ h (by omega)

theorem inv_worldCreate (s : AState) (hs : Inv s) : Inv (worldCreate s).2 := by
  exact inv_updWorlds (inv_bumpNextId s hs) (Nat.lt_succ_self s.nextId) rfl

theorem inv_shapeCreate (s : AState) (hs : Inv s) : Inv (shapeCreate s).2 := by
  refine inv_updShapes (inv_bumpNextId s hs) (Nat.lt_succ_self s.nextId) rfl ?_
  intro hr
  exact absurd hr (by simp)

theorem inv_worldStep (s : AState) (w : Nat) (hs : Inv s) : Inv (worldStep s w).2 := by
  unfold worldStep
  split
  · exact hs
  next we hw =>
    split
    next hwa =>
      exact inv_updWorlds hs (lt_nextId_of_worlds hs hw) (hs.flagW w we hw)
    · exact hs

theorem inv_bodyCreate (s : AState) (w sid : Nat) (m : Int) (hs : Inv s) :
    Inv (bodyCreate s w sid m).2 := by
  unfold bodyCreate
  split
  · exact hs
  next we hw =>
    split
    next hwa =>
      split
      · exact hs
      next se hsh =>
        split
        next hsa =>
          split
          · exact hs
          · refine inv_updShapes
              (inv_updBodies (inv_bumpNextId s hs) ?_ ?_) ?_ ?_ ?_
            · exact Nat.lt_succ_self s.nextId
            · exact rfl
            · show sid < s.nextId + 1
              exact Nat.lt_succ_of_lt (lt_nextId_of_shapes hs hsh)
            · exact hs.flagS sid se hsh
            · intro hr
              have hfs := hs.flagS sid se hsh
              rw [hsa, hr] at hfs
              exact absurd hfs (by simp)
        · exact hs
    · exact hs

theorem inv_shapeAttach (s : AState) (sid b : Nat) (hs : Inv s) :
    Inv (shapeAttach s sid b).2 := by
  unfold shapeAttach
  split
  · exact hs
  next se hsh =>
    split
    next hsa =>
      split
      · exact hs
      next be hbe =>
        split
        next hba =>
          split
          · exact hs
          · refine inv_updShapes (inv_updBodies hs ?_ ?_) ?_ ?_ ?_
            · exact lt_nextId_of_bodies hs hbe
            · exact hs.flagB b be hbe
            · show sid < s.nextId
              exact lt_nextId_of_shapes hs hsh
            · exact hs.flagS sid se hsh
            · intro hr
              have hfs := hs.flagS sid se hsh
              rw [hsa, hr] at hfs
              exact absurd hfs (by simp)
        · exact hs
    · exact hs

theorem inv_shapeDetach (s : AState) (sid b : Nat) (hs : Inv s) :
    Inv (shapeDetach s sid b).2 := by
  unfold shapeDetach
  split
  · exact hs
  next se hsh =>
    split
    next hsa =>
      split
      · exact hs
      next be hbe =>
        split
        next hba =>
          split
          next hbs =>
            exact inv_shapeDecrement _ _
              (inv_updBodies hs (lt_nextId_of_bodies hs hbe) (hs.flagB b be hbe))
          · exact hs
        · exact hs
    · exact hs

theorem inv_bodyDestroy (s : AState) (b : Nat) (hs : Inv s) :
    Inv (bodyDestroy s b).2 := by
  unfold bodyDestroy
  split
  · exact hs
  next be hbe =>
    split
    · exact inv_killBodyBookkeep _ _ (inv_killJointsByBody s b hs)
    · exact hs

theorem inv_bodySetMass (s : AState) (b : Nat) (m : Int) (hs : Inv s) :
    Inv (bodySetMass s b m).2 := by
  unfold bodySetMass
  split
  · exact hs
  next be hbe =>
    split
    next hba =>
      split
      · exact hs
      · exact inv_updBodies hs (lt_nextId_of_bodies hs hbe) (hs.flagB b be hbe)
    · exact hs

theorem inv_jointCreate (s : AState) (w a : Nat) (bo : Option Nat) (v : JointVariant)
    (hs : Inv s) : Inv (jointCreate s w a bo v).2 := by
  unfold jointCreate
  split
  · exact hs
  next we hw =>
    split
    next hwa =>
      split
      · exact hs
      next ea ha =>
        split
        next haa =>
          split
          · split
            · exact inv_updJoints (inv_bumpNextId s hs) (Nat.lt_succ_self s.nextId) rfl
            · exact hs
          · split
            · exact hs
            next eb hb =>
              split
              next hba =>
                split
                · exact inv_updJoints (inv_bumpNextId s hs) (Nat.lt_succ_self s.nextId) rfl
                · exact hs
              · exact hs
        · exact hs
    · exact hs

theorem inv_jointDestroy (s : AState) (j : Nat) (hs : Inv s) :
    Inv (jointDestroy s j).2 := by
  unfold jointDestroy
  split
  · exact hs
  next e he =>
    split
    · exact inv_updJoints hs (lt_nextId_of_joints hs he) rfl
    · exact hs

theorem inv_jointSetLimits (s : AState) (j : Nat) (lo hi : Int) (hs : Inv s) :
    Inv (jointSetLimits s j lo hi).2 := by
  unfold jointSetLimits
  split
  · exact hs
  next e he =>
    split
    next hea =>
      split
      · exact inv_updJoints hs (lt_nextId_of_joints hs he) (hs.flagJ j e he)
      · exact hs
    · exact hs

theorem inv_jointSetMotor (s : AState) (j : Nat) (t f : Int) (hs : Inv s) :
    Inv (jointSetMotor s j t f).2 := by
  unfold jointSetMotor
  split
  · exact hs
  next e he =>
    split
    next hea =>
      split
      · exact inv_updJoints hs (lt_nextId_of_joints hs he) (hs.flagJ j e he)
      · exact hs
    · exact hs

theorem inv_invalidateH (s : AState) (k : HKind) (h : Nat) (hs : Inv s) :
    Inv (invalidateH s k h).2 := by
  cases k with
  | world =>
    simp only [invalidateH]
    split
    next e he =>
      split
      · exact inv_updWorlds hs (lt_nextId_of_worlds hs he) rfl
      · exact hs
    · exact hs
  | shape =>
    simp only [invalidateH]
    split
    next e he =>
      split
      · exact inv_updShapes hs (lt_nextId_of_shapes hs he) rfl (fun _ => rfl)
      · exact hs
    · exact hs
  | body =>
    simp only [invalidateH]
    split
    next e he =>
      split
      · exact inv_updBodies hs (lt_nextId_of_bodies hs he) rfl
      · exact hs
    · exact hs
  | joint =>
    simp only [invalidateH]
    split
    next e he =>
      split
      · exact inv_updJoints hs (lt_nextId_of_joints hs he) rfl
      · exact hs
    · exact hs

theorem inv_worldDestroy (s : AState) (w : Nat) (hs : Inv s) :
    Inv (worldDestroy s w).state := by
  unfold worldDestroy
  split
  · exact hs
  next we hw =>
    split
    next hwa =>
      dsimp only
      have h2 : Inv ((ownedBodies s w).foldl killBodyBookkeep (killJointsByWorld s w)) :=
        foldl_pres Inv killBodyBookkeep (fun s' b hp => inv_killBodyBookkeep s' b hp) _ _
          (inv_killJointsByWorld s w hs)
      refine inv_updWorlds h2 ?_ rfl
      have hlt : w < s.nextId := lt_nextId_of_worlds hs hw
      rw [foldl_killBodyBookkeep_nextId]
      exact hlt
    · exact hs

/-- Every public operation preserves the registry invariants. -/
theorem inv_applyOp (s : AState) (op : Op) (hs : Inv s) : Inv (applyOp s op).state := by
  cases op with
  | opWorldCreate => exact inv_worldCreate s hs
  | opWorldDestroy w => exact inv_worldDestroy s w hs
  | opWorldStep w => exact inv_worldStep s w hs
  | opShapeCreate => exact inv_shapeCreate s hs
  | opShapeAttach sid b => exact inv_shapeAttach s sid b hs
  | opShapeDetach sid b => exact inv_shapeDetach s sid b hs
  | opBodyCreate w sid m => exact inv_bodyCreate s w sid m hs
  | opBodyDestroy b => exact inv_bodyDestroy s b hs
  | opBodySetMass b m => exact inv_bodySetMass s b m hs
  | opJointCreate w a bo v => exact inv_jointCreate s w a bo v hs
  | opJointDestroy j => exact inv_jointDestroy s j hs
  | opJointSetLimits j lo hi => exact inv_jointSetLimits s j lo hi hs
  | opJointSetMotor j t f => exact inv_jointSetMotor s j t f hs
  | opInvalidate k h => exact inv_invalidateH s k h hs
  | opResolve k h => exact hs

/-- The empty registry satisfies the invariants. -/
theorem inv_initState : Inv initState := by
  refine ⟨?_, ?_, ?_, ?_, ?_, ?_, ?_, ?_, ?_⟩ <;> intro h <;> intros <;> simp_all [initState]

/-- Every reachable state satisfies the registry invariants. -/
theorem reach_inv {s : AState} (hr : Reach s) : Inv s := by
  induction hr with
  | init => exact inv_initState
  | step s op _ ih => exact inv_applyOp s op ih

/-! ### Claims about the registration unit (`msp_lib.cpp`) -/

/-- Whether a registration event is a component initialisation. -/
def RegEvent.isInit : RegEvent → Bool
  | .initComp _ _ => true
  | _ => false

/-- C7, counterexample: the claim says the joint family has exactly ten
variants and that the registered joint-variant set has exactly ten
members; `Init_msp_lib` registers eleven joint-variant modules. -/
theorem C7_counterexample_eleven_not_ten :
    ¬ (registeredJointVariants Init_msp_lib).length = 10 := by
  decide

/-- C7 (amended): the Joint family consists of exactly eleven concrete
constraint variants, and the set of joint-variant modules registered by
`Init_msp_lib` is exactly that eleven-variant set (each registered exactly
once). -/
theorem C7_joint_family_eleven_variants :
    Fintype.card JointVariant = 11 ∧
    (registeredJointVariants Init_msp_lib).length = 11 ∧
    (registeredJointVariants Init_msp_lib).Nodup ∧
    (∀ c, c ∈ jointVariantNames → c ∈ registeredJointVariants Init_msp_lib) ∧
    (∀ c, c ∈ registeredJointVariants Init_msp_lib → c ∈ jointVariantNames) := by
  refine ⟨?_, ?_, ?_, ?_, ?_⟩ <;> decide

/-- C7, witness: the `fixed` variant module is among the registered
joint-variant modules. -/
theorem C7_witness :
    "fixed" ∈ registeredJointVariants Init_msp_lib :=
  C7_joint_family_eleven_variants.2.2.2.1 "fixed" (by decide)

/-- C8, counterexample: the claim says the physics sub-namespace
(`Newton`) exposes the audio components as its children; in
`Init_msp_lib` the `sound` component is registered under the top-level
`MSPhysics` module, not under `Newton`. -/
theorem C8_counterexample_audio_not_under_newton :
    RegEvent.initComp "Newton" "sound" ∉ Init_msp_lib ∧
    RegEvent.initComp "MSPhysics" "sound" ∈ Init_msp_lib := by
  decide

/-- C8 (amended): registration builds the hierarchy with one top-level
namespace (`MSPhysics`) containing the physics sub-namespace (`Newton`);
the physics components and all joint-variant constructors are registered
under `Newton`, while the audio components (sdl, sdl_mixer, sound, music)
and the util component are registered directly under the top-level
`MSPhysics` namespace — siblings of the physics sub-namespace, not its
children. -/
theorem C8_namespace_hierarchy :
    Init_msp_lib.get? 0 = some (RegEvent.defModule "MSPhysics") ∧
    Init_msp_lib.get? 1 = some (RegEvent.defModuleUnder "MSPhysics" "Newton") ∧
    (∀ c, c ∈ physicsComponentNames → RegEvent.initComp "Newton" c ∈ Init_msp_lib) ∧
    (∀ c, c ∈ jointVariantNames → RegEvent.initComp "Newton" c ∈ Init_msp_lib) ∧
    RegEvent.initComp "MSPhysics" "util" ∈ Init_msp_lib ∧
    (∀ c, c ∈ audioComponentNames → RegEvent.initComp "MSPhysics" c ∈ Init_msp_lib) ∧
    (∀ c, c ∈ audioComponentNames → RegEvent.initComp "Newton" c ∉ Init_msp_lib) := by
  refine ⟨?_, ?_, ?_, ?_, ?_, ?_, ?_⟩ <;> decide

/-- C8, witness: the `music` audio component is registered under the
top-level `MSPhysics` module. -/
theorem C8_witness :
    RegEvent.initComp "MSPhysics" "music" ∈ Init_msp_lib :=
  C8_namespace_hierarchy.2.2.2.2.2.1 "music" (by decide)

/-- C10: `Init_msp_lib` takes no input and branches on nothing (it is
embedded as a constant event list, so any two runs perform the identical
sequence); it defines the top-level `MSPhysics` module and the `Newton`
sub-module before any component registration, registers every non-util
physics component before any joint variant, registers the eleven
joint-variant modules next, and registers the four audio components
(sdl, sdl_mixer, sound, music) last. -/
theorem C10_registration_order :
    Init_msp_lib.get? 0 = some (RegEvent.defModule "MSPhysics") ∧
    Init_msp_lib.get? 1 = some (RegEvent.defModuleUnder "MSPhysics" "Newton") ∧
    (∀ i : Fin Init_msp_lib.length, 2 ≤ i.val → (Init_msp_lib.get i).isInit = true) ∧
    (∀ i : Fin Init_msp_lib.length, (Init_msp_lib.get i).isPhysicsComponent = true →
      ∀ j : Fin Init_msp_lib.length, (Init_msp_lib.get j).isJointVariant = true →
        i.val < j.val) ∧
    (∀ i : Fin Init_msp_lib.length, (Init_msp_lib.get i).isJointVariant = true →
      ∀ j : Fin Init_msp_lib.length, (Init_msp_lib.get j).isAudio = true → i.val < j.val) ∧
    (Init_msp_lib.filter (fun e => e.isJointVariant)).length = 11 ∧
    Init_msp_lib.drop 20 =
      [RegEvent.initComp "MSPhysics" "sdl", RegEvent.initComp "MSPhysics" "sdl_mixer",
       RegEvent.initComp "MSPhysics" "sound", RegEvent.initComp "MSPhysics" "music"] := by
  refine ⟨?_, ?_, ?_, ?_, ?_, ?_, ?_⟩ <;> decide

/-- C10, witness: the `world` physics component (event 4) is registered
before the `ball_and_socket` joint variant (event 9). -/
theorem C10_witness :
    (⟨4, by decide⟩ : Fin Init_msp_lib.length).val <
      (⟨9, by decide⟩ : Fin Init_msp_lib.length).val :=
  C10_registration_order.2.2.2.1 ⟨4, by decide⟩ (by decide) ⟨9, by decide⟩ (by decide)

/-! ### What destroy does to the destroyed handle and to owned entries -/

theorem killBodyBookkeep_bodies_ne (s : AState) (x b : Nat) (hne : b ≠ x) :
    (killBodyBookkeep s x).bodies b = s.bodies b := by
  unfold killBodyBookkeep
  split
  · rfl
  next be hbe =>
    split
    · split
      · rw [shapeDecrement_bodies]
        exact upd_ne _ _ _ _ hne
      · exact upd_ne _ _ _ _ hne
    · rfl

theorem killBodyBookkeep_kills (s : AState) (b : Nat) :
    handleAlive (killBodyBookkeep s b) .body b = false := by
  unfold killBodyBookkeep
  split
  next hbe => simp [handleAlive, hbe]
  next be hbe =>
    split
    · split
      · show handleAlive (shapeDecrement _ _) .body b = false
        simp [handleAlive, shapeDecrement_bodies, upd_self, killB]
      · simp [handleAlive, upd_self, killB]
    next hba => simp [handleAlive, hbe, Bool.of_not_eq_true hba]

theorem killBodyBookkeep_pres_deadBody (s : AState) (x b : Nat)
    (hd : handleAlive s .body b = false) :
    handleAlive (killBodyBookkeep s x) .body b = false := by
  by_cases hxb : b = x
  · subst hxb
    exact killBodyBookkeep_kills s b
  · simp only [handleAlive, killBodyBookkeep_bodies_ne s x b hxb]
    simpa [handleAlive] using hd

theorem foldl_killBodyBookkeep_kills (l : List Nat) (s : AState) (b : Nat)
    (h : b ∈ l ∨ handleAlive s .body b = false) :
    handleAlive (l.foldl killBodyBookkeep s) .body b = false := by
  induction l generalizing s with
  | nil =>
    rcases h with h | h
    · exact absurd h (List.not_mem_nil b)
    · exact h
  | cons x xs ih =>
    rw [List.foldl_cons]
    rcases h with h | h
    · rcases List.mem_cons.mp h with rfl | hxs
      · exact ih _ (Or.inr (killBodyBookkeep_kills s b))
      · exact ih _ (Or.inl hxs)
    · exact ih _ (Or.inr (killBodyBookkeep_pres_deadBody s x b h))

theorem mem_ownedBodies {s : AState} {w b : Nat} {be : BodyE} (hi : Inv s)
    (hb : s.bodies b = some be) (hba : be.alive = true) (hbw : be.world = w) :
    b ∈ ownedBodies s w := by
  unfold ownedBodies
  rw [List.mem_filter]
  refine ⟨List.mem_range.mpr (lt_nextId_of_bodies hi hb), ?_⟩
  rw [hb]
  simp [hba, hbw]

theorem mem_ownedJoints {s : AState} {w j : Nat} {e : JointE} (hi : Inv s)
    (hj : s.joints j = some e) (hja : e.alive = true) (hjw : e.world = w) :
    j ∈ ownedJoints s w := by
  unfold ownedJoints
  rw [List.mem_filter]
  refine ⟨List.mem_range.mpr (lt_nextId_of_joints hi hj), ?_⟩
  rw [hj]
  simp [hja, hjw]

theorem worldDestroy_state_alive {s : AState} {w : Nat} {we : WorldE}
    (hw : s.worlds w = some we) (hwa : we.alive = true) :
    (worldDestroy s w).state =
      { (ownedBodies s w).foldl killBodyBookkeep (killJointsByWorld s w) with
        worlds := upd ((ownedBodies s w).foldl killBodyBookkeep (killJointsByWorld s w)).worlds
          w (killW we) } := by
  unfold worldDestroy
  rw [hw]
  simp [hwa]

theorem worldDestroy_trace_alive {s : AState} {w : Nat} {we : WorldE}
    (hw : s.worlds w = some we) (hwa : we.alive = true) :
    (worldDestroy s w).trace =
      (ownedJoints s w).map DestroyEv.invalidateJoint ++
        (ownedBodies s w).map DestroyEv.invalidateBody ++ [DestroyEv.releaseWorldNative] := by
  unfold worldDestroy
  rw [hw]
  simp [hwa]

/-- After `World.destroy`, every Body the world owned is invalid. -/
theorem worldDestroy_kills_body {s : AState} {w b : Nat} {we : WorldE} {be : BodyE}
    (hi : Inv s) (hw : s.worlds w = some we) (hwa : we.alive = true)
    (hb : s.bodies b = some be) (hba : be.alive = true) (hbw : be.world = w) :
    handleAlive (worldDestroy s w).state .body b = false := by
  rw [worldDestroy_state_alive hw hwa]
  have hmem : b ∈ ownedBodies s w := mem_ownedBodies hi hb hba hbw
  have : handleAlive ((ownedBodies s w).foldl killBodyBookkeep (killJointsByWorld s w))
      .body b = false :=
    foldl_killBodyBookkeep_kills _ _ b (Or.inl hmem)
  simpa [handleAlive] using this

/-- After `World.destroy`, the world handle itself is invalid. -/
theorem worldDestroy_kills_world (s : AState) (w : Nat) :
    handleAlive (worldDestroy s w).state .world w = false := by
  cases hw : s.worlds w with
  | none =>
    have hst : (worldDestroy s w).state = s := by unfold worldDestroy; rw [hw]
    rw [hst]
    simp [handleAlive, hw]
  | some we =>
    by_cases hwa : we.alive
    · rw [worldDestroy_state_alive hw hwa]
      simp [handleAlive, upd_self, killW]
    · have hst : (worldDestroy s w).state = s := by
        unfold worldDestroy
        rw [hw]
        simp [hwa]
      rw [hst]
      simp [handleAlive, hw, Bool.of_not_eq_true hwa]

/-- After `Body.destroy`, the body handle is invalid. -/
theorem bodyDestroy_kills_body (s : AState) (b : Nat) :
    handleAlive (bodyDestroy s b).2 .body b = false := by
  unfold bodyDestroy
  split
  next hbe => simp [handleAlive, hbe]
  next be hbe =>
    split
    · exact killBodyBookkeep_kills _ b
    next hba => simp [handleAlive, hbe, Bool.of_not_eq_true hba]

/-- After `Joint.destroy`, the joint handle is invalid. -/
theorem jointDestroy_kills_joint (s : AState) (j : Nat) :
    handleAlive (jointDestroy s j).2 .joint j = false := by
  unfold jointDestroy
  split
  next hje => simp [handleAlive, hje]
  next e hje =>
    split
    · simp [handleAlive, upd_self, killJ]
    next hja => simp [handleAlive, hje, Bool.of_not_eq_true hja]

/-- After registry `invalidate`, the handle is invalid. -/
theorem invalidateH_kills (s : AState) (k : HKind) (h : Nat) :
    handleAlive (invalidateH s k h).2 k h = false := by
  cases k with
  | world =>
    simp only [invalidateH]
    split
    next e he =>
      split
      · simp [handleAlive, upd_self, killW]
      next ha => simp [handleAlive, he, Bool.of_not_eq_true ha]
    next he => simp [handleAlive, he]
  | shape =>
    simp only [invalidateH]
    split
    next e he =>
      split
      · simp [handleAlive, upd_self, killS]
      next ha => simp [handleAlive, he, Bool.of_not_eq_true ha]
    next he => simp [handleAlive, he]
  | body =>
    simp only [invalidateH]
    split
    next e he =>
      split
      · simp [handleAlive, upd_self, killB]
      next ha => simp [handleAlive, he, Bool.of_not_eq_true ha]
    next he => simp [handleAlive, he]
  | joint =>
    simp only [invalidateH]
    split
    next e he =>
      split
      · simp [handleAlive, upd_self, killJ]
      next ha => simp [handleAlive, he, Bool.of_not_eq_true ha]
    next he => simp [handleAlive, he]

/-- `World.destroy` always reports success. -/
theorem worldDestroy_res_ok (s : AState) (w : Nat) : (worldDestroy s w).res = .ok () := by
  cases hw : s.worlds w with
  | none => simp [worldDestroy, hw]
  | some we =>
    by_cases hwa : we.alive
    · simp [worldDestroy, hw, hwa]
    · simp [worldDestroy, hw, hwa]

/-- `Body.destroy` always reports success. -/
theorem bodyDestroy_res_ok (s : AState) (b : Nat) : (bodyDestroy s b).1 = .ok () := by
  cases hb : s.bodies b with
  | none => simp [bodyDestroy, hb]
  | some be =>
    by_cases hba : be.alive
    · simp [bodyDestroy, hb, hba]
    · simp [bodyDestroy, hb, hba]

/-- `Joint.destroy` always reports success. -/
theorem jointDestroy_res_ok (s : AState) (j : Nat) : (jointDestroy s j).1 = .ok () := by
  cases hj : s.joints j with
  | none => simp [jointDestroy, hj]
  | some e =>
    by_cases hja : e.alive
    · simp [jointDestroy, hj, hja]
    · simp [jointDestroy, hj, hja]

/-- Registry `invalidate` always reports success. -/
theorem invalidateH_res_ok (s : AState) (k : HKind) (h : Nat) :
    (invalidateH s k h).1 = .ok () := by
  cases k <;>
    · simp only [invalidateH]
      split
      · split <;> rfl
      · rfl

/-! ### Concrete scenario states used by witnesses and counterexamples -/

/-- One world, handle id 0. -/
def sWorld : AState := (applyOp initState .opWorldCreate).state

/-- World 0 and a collision shape, handle id 1. -/
def sWS : AState := (applyOp sWorld .opShapeCreate).state

/-- World 0, shape 1, and a body (handle id 2, mass 1) in world 0
attached to shape 1. -/
def sWSB : AState := (applyOp sWS (.opBodyCreate 0 1 1)).state

/-- The scenario after `destroy(world 0)`: the cascade has invalidated
body 2 and released shape 1 and the world. -/
def sWDead : AState := (applyOp sWSB (.opWorldDestroy 0)).state

theorem reach_sWSB : Reach sWSB := by
  unfold sWSB sWS sWorld
  exact Reach.step _ _ (Reach.step _ _ (Reach.step _ _ Reach.init))

theorem reach_sWDead : Reach sWDead := by
  unfold sWDead
  exact Reach.step _ _ reach_sWSB

/-! ### C1 -/

/-- C1 (amended): for every handle-id h and public operation op taking h:
if the liveness flag of h is false, then any non-teardown op fails with
`InvalidHandle` and the idempotent teardown operations
(destroy/invalidate) succeed as no-ops, and in either case the call
dereferences no native handle; moreover in every reachable state an
entry's liveness flag is false exactly when its native handle has been
released. -/
theorem C1_dead_handle_safety :
    (∀ s op k h, (k, h) ∈ op.targets → handleAlive s k h = false →
      (applyOp s op).derefs = [] ∧
      (op.isTeardown = false → (applyOp s op).res = .error .InvalidHandle) ∧
      (op.isTeardown = true → (applyOp s op).res = .ok ())) ∧
    (∀ s, Reach s →
      (∀ h e, s.worlds h = some e → (e.alive = false ↔ e.nativeReleased = true)) ∧
      (∀ h e, s.shapes h = some e → (e.alive = false ↔ e.nativeReleased = true)) ∧
      (∀ h e, s.bodies h = some e → (e.alive = false ↔ e.nativeReleased = true)) ∧
      (∀ h e, s.joints h = some e → (e.alive = false ↔ e.nativeReleased = true))) := by
  constructor
  · exact applyOp_deadTarget
  · intro s hr
    have hi := reach_inv hr
    refine ⟨?_, ?_, ?_, ?_⟩ <;> intro h e he
    · rw [hi.flagW h e he]; simp
    · rw [hi.flagS h e he]; simp
    · rw [hi.flagB h e he]; simp
    · rw [hi.flagJ h e he]; simp

/-- C1, witness: in the concrete scenario, stepping a never-created world
fails with `InvalidHandle`, and after destroying world 0 its registry
entry has a false liveness flag if and only if the native handle was
released (here: both). -/
theorem C1_witness :
    (applyOp sWSB (.opWorldStep 5)).res = .error .InvalidHandle ∧
    ((killW ⟨true, false, 0⟩).alive = false ↔ (killW ⟨true, false, 0⟩).nativeReleased = true) := by
  constructor
  · exact (C1_dead_handle_safety.1 sWSB (.opWorldStep 5) .world 5 (by simp [Op.targets])
      (by decide)).2.1 rfl
  · exact (C1_dead_handle_safety.2 sWDead reach_sWDead).1 0 (killW ⟨true, false, 0⟩) (by decide)

/-- C1, counterexample: the claim as stated requires every public
operation on a dead handle to fail with `InvalidHandle`, but destroy is
idempotent teardown: destroying the already-destroyed world 0 succeeds
instead of failing. -/
theorem C1_counterexample_teardown_succeeds :
    handleAlive sWDead .world 0 = false ∧
    (applyOp sWDead (.opWorldDestroy 0)).res ≠ .error .InvalidHandle := by
  refine ⟨by decide, ?_⟩
  have h : (applyOp sWDead (.opWorldDestroy 0)).res = .ok () := rfl
  rw [h]
  intro hc
  exact Except.noConfusion hc

/-! ### C2 -/

/-- C2 (amended): while a world and a body created in it are alive,
resolving the body succeeds; after destroying the world, the body's
liveness flag is false and every subsequent non-teardown operation on it
fails with `InvalidHandle` (the idempotent teardown operations
destroy/invalidate succeed as no-ops instead). -/
theorem C2_world_destroy_invalidates_bodies :
    (∀ s w b we be, s.worlds w = some we → we.alive = true →
      s.bodies b = some be → be.alive = true → resolveH s .body b = .ok b) ∧
    (∀ s, Reach s → ∀ w b we be, s.worlds w = some we → we.alive = true →
      s.bodies b = some be → be.alive = true → be.world = w →
      handleAlive (worldDestroy s w).state .body b = false ∧
      (∀ op, (HKind.body, b) ∈ op.targets →
        (op.isTeardown = false →
          (applyOp (worldDestroy s w).state op).res = .error .InvalidHandle) ∧
        (op.isTeardown = true → (applyOp (worldDestroy s w).state op).res = .ok ()))) := by
  constructor
  · intro s w b we be hw hwa hb hba
    simp [resolveH, handleAlive, hb, hba]
  · intro s hr w b we be hw hwa hb hba hbw
    have hdead : handleAlive (worldDestroy s w).state .body b = false :=
      worldDestroy_kills_body (reach_inv hr) hw hwa hb hba hbw
    refine ⟨hdead, ?_⟩
    intro op hmem
    exact (applyOp_deadTarget _ op .body b hmem hdead).2

/-- C2, witness: in the concrete scenario, body 2 resolves while world 0
is alive, and after `destroy(world 0)` body 2 is no longer alive. -/
theorem C2_witness :
    resolveH sWSB .body 2 = .ok 2 ∧
    handleAlive (worldDestroy sWSB 0).state .body 2 = false := by
  constructor
  · exact C2_world_destroy_invalidates_bodies.1 sWSB 0 2 ⟨true, false, 0⟩
      ⟨true, false, 0, some 1, 1⟩ rfl rfl rfl rfl
  · exact (C2_world_destroy_invalidates_bodies.2 sWSB reach_sWSB 0 2 ⟨true, false, 0⟩
      ⟨true, false, 0, some 1, 1⟩ rfl rfl rfl rfl rfl).1

/-- C2, counterexample: the claim as stated says that after `destroy(W)`
every operation on an owned body fails with `InvalidHandle`; but
destroying body 2 after its world was destroyed is an idempotent no-op
that succeeds. -/
theorem C2_counterexample_body_destroy_succeeds :
    handleAlive sWDead .body 2 = false ∧
    (applyOp sWDead (.opBodyDestroy 2)).res ≠ .error .InvalidHandle := by
  refine ⟨by decide, ?_⟩
  have h : (applyOp sWDead (.opBodyDestroy 2)).res = .ok () := rfl
  rw [h]
  intro hc
  exact Except.noConfusion hc

/-! ### C5 -/

/-- C5: creating a Joint between two live Bodies that belong to different
Worlds fails with `CrossWorldReference`, and the failed call is atomic:
the returned state is exactly the input state (no native resource is
created, no registry or World state changes). -/
theorem C5_cross_world_joint_fails :
    ∀ s w a b v we ea eb, s.worlds w = some we → we.alive = true →
      s.bodies a = some ea → ea.alive = true →
      s.bodies b = some eb → eb.alive = true →
      ea.world ≠ eb.world →
      jointCreate s w a (some b) v = (.error .CrossWorldReference, s) := by
  intro s w a b v we ea eb hw hwa ha haa hb hba hne
  have hnot : ¬ (ea.world = w ∧ eb.world = w) := by
    rintro ⟨h1, h2⟩
    exact hne (h1.trans h2.symm)
  simp [jointCreate, hw, hwa, ha, haa, hb, hba, hnot]

/-- A second world (handle id 1) next to world 0. -/
def sTwoWorlds : AState := (applyOp sWorld .opWorldCreate).state

/-- Two worlds and a shape (handle id 2). -/
def sTwoWS : AState := (applyOp sTwoWorlds .opShapeCreate).state

/-- Two worlds, a shape, and a body (id 3) in world 0. -/
def sTwoWSB : AState := (applyOp sTwoWS (.opBodyCreate 0 2 1)).state

/-- Two worlds, a shape, body 3 in world 0, and body 4 in world 1. -/
def sTwoWSBB : AState := (applyOp sTwoWSB (.opBodyCreate 1 2 1)).state

/-- C5, witness: a fixed joint between body 3 (world 0) and body 4
(world 1) fails with `CrossWorldReference` and leaves the state
untouched. -/
theorem C5_witness :
    jointCreate sTwoWSBB 0 3 (some 4) .fixed = (.error .CrossWorldReference, sTwoWSBB) :=
  C5_cross_world_joint_fails sTwoWSBB 0 3 4 .fixed ⟨true, false, 0⟩
    ⟨true, false, 0, some 2, 1⟩ ⟨true, false, 1, some 2, 1⟩
    rfl rfl rfl rfl rfl rfl (by decide)

/-! ### C6 -/

/-- C6: destroy and invalidate are idempotent on every handle: each
destroy always reports success, and calling it again on the
already-destroyed handle is a no-op that returns success and leaves the
state (hence the already-released native resources) untouched; the same
holds for the registry's invalidate on every handle kind. -/
theorem C6_destroy_idempotent :
    (∀ s w, (worldDestroy s w).res = .ok () ∧
      worldDestroy (worldDestroy s w).state w =
        ⟨.ok (), (worldDestroy s w).state, []⟩) ∧
    (∀ s b, (bodyDestroy s b).1 = .ok () ∧
      bodyDestroy (bodyDestroy s b).2 b = (.ok (), (bodyDestroy s b).2)) ∧
    (∀ s j, (jointDestroy s j).1 = .ok () ∧
      jointDestroy (jointDestroy s j).2 j = (.ok (), (jointDestroy s j).2)) ∧
    (∀ s k h, (invalidateH s k h).1 = .ok () ∧
      invalidateH (invalidateH s k h).2 k h = (.ok (), (invalidateH s k h).2)) := by
  refine ⟨?_, ?_, ?_, ?_⟩
  · intro s w
    exact ⟨worldDestroy_res_ok s w,
      worldDestroy_dead _ w (worldDestroy_kills_world s w)⟩
  · intro s b
    exact ⟨bodyDestroy_res_ok s b,
      bodyDestroy_dead _ b (bodyDestroy_kills_body s b)⟩
  · intro s j
    exact ⟨jointDestroy_res_ok s j,
      jointDestroy_dead _ j (jointDestroy_kills_joint s j)⟩
  · intro s k h
    exact ⟨invalidateH_res_ok s k h,
      invalidateH_dead _ k h (invalidateH_kills s k h)⟩

/-! ### C9 -/

theorem supportsMotor_iff (v : JointVariant) :
    v.supportsMotor = true ↔ (v = .motor ∨ v = .servo ∨ v = .piston) := by
  cases v <;> simp [JointVariant.supportsMotor]

/-- C9: capability-gated joint setters — `set_motor_params` on a live
`fixed` joint (or any variant without the motor capability) fails with
`UnsupportedOperation` and changes nothing, as does `set_limits` on any
live variant without limits (`fixed` among them); `set_motor_params`
succeeds exactly on the applicable variants motor/servo/piston. -/
theorem C9_capability_errors :
    (JointVariant.supportsMotor .fixed = false ∧
      JointVariant.supportsLimits .fixed = false) ∧
    (∀ s j e t f, s.joints j = some e → e.alive = true →
      e.variant.supportsMotor = false →
      jointSetMotor s j t f = (.error .UnsupportedOperation, s)) ∧
    (∀ s j e lo hi, s.joints j = some e → e.alive = true →
      e.variant.supportsLimits = false →
      jointSetLimits s j lo hi = (.error .UnsupportedOperation, s)) ∧
    (∀ s j t f, (jointSetMotor s j t f).1 = .ok () →
      ∃ e, s.joints j = some e ∧
        (e.variant = .motor ∨ e.variant = .servo ∨ e.variant = .piston)) ∧
    (∀ s j e t f, s.joints j = some e → e.alive = true →
      (e.variant = .motor ∨ e.variant = .servo ∨ e.variant = .piston) →
      (jointSetMotor s j t f).1 = .ok ()) := by
  refine ⟨⟨rfl, rfl⟩, ?_, ?_, ?_, ?_⟩
  · intro s j e t f hj hja hcap
    simp [jointSetMotor, hj, hja, hcap]
  · intro s j e lo hi hj hja hcap
    simp [jointSetLimits, hj, hja, hcap]
  · intro s j t f hok
    cases hj : s.joints j with
    | none => rw [jointSetMotor] at hok; rw [hj] at hok; exact Except.noConfusion hok
    | some e =>
      by_cases hja : e.alive
      · by_cases hcap : e.variant.supportsMotor
        · exact ⟨e, rfl, (supportsMotor_iff e.variant).mp hcap⟩
        · rw [jointSetMotor] at hok
          rw [hj] at hok
          simp [hja, hcap] at hok
      · rw [jointSetMotor] at hok
        rw [hj] at hok
        simp [hja] at hok
  · intro s j e t f hj hja htrio
    have hcap : e.variant.supportsMotor = true := (supportsMotor_iff e.variant).mpr htrio
    simp [jointSetMotor, hj, hja, hcap]

/-- World 0, shape 1, body 2 and a fixed joint (handle id 3) between
body 2 and the world frame. -/
def sWSBJfix : AState := (applyOp sWSB (.opJointCreate 0 2 none .fixed)).state

/-- C9, witness: `set_motor_params` on the live fixed joint 3 fails with
`UnsupportedOperation` and leaves the state untouched. -/
theorem C9_witness :
    jointSetMotor sWSBJfix 3 1 1 = (.error .UnsupportedOperation, sWSBJfix) :=
  C9_capability_errors.2.1 sWSBJfix 3 ⟨true, false, 0, .fixed, 2, none, 0, 0, 0, 0⟩ 1 1
    rfl rfl rfl

/-! ### C4 -/

/-- C4: the collision-shape reference count — body creation over a live
shape and `attach` increment the count; `detach` and owning-body
destruction decrement it, releasing the native geometry exactly when the
count reaches zero (count one beforehand) and leaving the entry alive
with the decremented count otherwise (no early release, no leak); and in
every reachable state a released shape has reference count zero. -/
theorem C4_shape_refcount :
    (∀ s w sid m we se, s.worlds w = some we → we.alive = true →
      s.shapes sid = some se → se.alive = true → 0 < m →
      (bodyCreate s w sid m).2.shapes sid =
        some { se with refCount := se.refCount + 1 }) ∧
    (∀ s sid b se be, s.shapes sid = some se → se.alive = true →
      s.bodies b = some be → be.alive = true → be.shape = none →
      (shapeAttach s sid b).1 = .ok () ∧
      (shapeAttach s sid b).2.shapes sid =
        some { se with refCount := se.refCount + 1 }) ∧
    (∀ s sid b se be, s.shapes sid = some se → se.alive = true →
      s.bodies b = some be → be.alive = true → be.shape = some sid →
      (shapeDetach s sid b).1 = .ok () ∧
      (se.refCount ≤ 1 → (shapeDetach s sid b).2.shapes sid = some ⟨false, true, 0⟩) ∧
      (2 ≤ se.refCount →
        (shapeDetach s sid b).2.shapes sid =
          some { se with refCount := se.refCount - 1 })) ∧
    (∀ s b be sid se, s.bodies b = some be → be.alive = true → be.shape = some sid →
      s.shapes sid = some se →
      (se.refCount ≤ 1 → (bodyDestroy s b).2.shapes sid = some ⟨false, true, 0⟩) ∧
      (2 ≤ se.refCount →
        (bodyDestroy s b).2.shapes sid =
          some { se with refCount := se.refCount - 1 })) ∧
    (∀ s, Reach s → ∀ sid se, s.shapes sid = some se → se.nativeReleased = true →
      se.refCount = 0) := by
  refine ⟨?_, ?_, ?_, ?_, ?_⟩
  · intro s w sid m we se hw hwa hsh hsa hm
    have hm' : ¬ m ≤ 0 := Int.not_le.mpr hm
    simp [bodyCreate, hw, hwa, hsh, hsa, hm', upd_self]
  · intro s sid b se be hsh hsa hb hba hbn
    constructor
    · simp [shapeAttach, hsh, hsa, hb, hba, hbn]
    · simp [shapeAttach, hsh, hsa, hb, hba, hbn, upd_self]
  · intro s sid b se be hsh hsa hb hba hbs
    refine ⟨?_, ?_, ?_⟩
    · simp [shapeDetach, hsh, hsa, hb, hba, hbs]
    · intro hle
      have hst : (shapeDetach s sid b).2 =
          shapeDecrement { s with bodies := upd s.bodies b { be with shape := none } } sid := by
        simp [shapeDetach, hsh, hsa, hb, hba, hbs]
      rw [hst]
      unfold shapeDecrement
      dsimp only
      rw [hsh]
      simp [show se.refCount - 1 = 0 by omega, upd_self]
    · intro hge
      have hst : (shapeDetach s sid b).2 =
          shapeDecrement { s with bodies := upd s.bodies b { be with shape := none } } sid := by
        simp [shapeDetach, hsh, hsa, hb, hba, hbs]
      rw [hst]
      unfold shapeDecrement
      dsimp only
      rw [hsh]
      simp [show ¬ (se.refCount - 1 = 0) by omega, upd_self]
  · intro s b be sid se hb hba hbs hsh
    have hst : (bodyDestroy s b).2 =
        shapeDecrement
          { killJointsByBody s b with
            bodies := upd (killJointsByBody s b).bodies b (killB be) } sid := by
      have hb' : (killJointsByBody s b).bodies b = some be := hb
      simp [bodyDestroy, hb, hba, killBodyBookkeep, hb', hbs]
    constructor
    · intro hle
      rw [hst]
      unfold shapeDecrement
      dsimp only
      rw [show (killJointsByBody s b).shapes sid = some se from hsh]
      simp [show se.refCount - 1 = 0 by omega, upd_self]
    · intro hge
      rw [hst]
      unfold shapeDecrement
      dsimp only
      rw [show (killJointsByBody s b).shapes sid = some se from hsh]
      simp [show ¬ (se.refCount - 1 = 0) by omega, upd_self]
  · intro s hr sid se hsh hrel
    exact (reach_inv hr).shapeZero sid se hsh hrel

/-- C4, witness: creating body 2 over shape 1 raises the count from zero
to one, and destroying the single attached body 2 releases shape 1's
native geometry at count zero. -/
theorem C4_witness :
    (bodyCreate sWS 0 1 1).2.shapes 1 = some ⟨true, false, 1⟩ ∧
    (bodyDestroy sWSB 2).2.shapes 1 = some ⟨false, true, 0⟩ := by
  constructor
  · exact C4_shape_refcount.1 sWS 0 1 1 ⟨true, false, 0⟩ ⟨true, false, 0⟩
      rfl rfl rfl rfl (by decide)
  · exact (C4_shape_refcount.2.2.2.1 sWSB 2 ⟨true, false, 0, some 1, 1⟩ 1 ⟨true, false, 1⟩
      rfl rfl rfl rfl).1 (by decide)

/-! ### C3 -/

theorem getElem?_single {α : Type} {x y : α} {n : Nat} (h : [x][n]? = some y) :
    y = x ∧ n = 0 := by
  cases n with
  | zero => simp at h; exact ⟨h.symm, rfl⟩
  | succ m => simp at h

theorem cascade_joint_pos_lt (js bs : List Nat) (i a : Nat)
    (h : (js.map DestroyEv.invalidateJoint ++ bs.map DestroyEv.invalidateBody ++
      [DestroyEv.releaseWorldNative])[i]? = some (DestroyEv.invalidateJoint a)) :
    i < js.length := by
  by_contra hc
  have hc' : (js.map DestroyEv.invalidateJoint).length ≤ i := by
    simpa using Nat.le_of_not_lt hc
  rw [List.append_assoc, List.getElem?_append_right hc'] at h
  set d := i - (js.map DestroyEv.invalidateJoint).length with hd
  by_cases hdb : d < (bs.map DestroyEv.invalidateBody).length
  · rw [List.getElem?_append_left hdb, List.getElem?_map] at h
    cases hbd : bs[d]? with
    | none => rw [hbd] at h; exact Option.noConfusion h
    | some b =>
      rw [hbd] at h
      have := Option.some.inj h
      exact DestroyEv.noConfusion this
  · rw [List.getElem?_append_right (Nat.le_of_not_lt hdb)] at h
    have := (getElem?_single h).1
    exact DestroyEv.noConfusion this

theorem cascade_body_pos_bounds (js bs : List Nat) (j b : Nat)
    (h : (js.map DestroyEv.invalidateJoint ++ bs.map DestroyEv.invalidateBody ++
      [DestroyEv.releaseWorldNative])[j]? = some (DestroyEv.invalidateBody b)) :
    js.length ≤ j ∧ j < js.length + bs.length := by
  constructor
  · by_contra hc
    have hc' : j < (js.map DestroyEv.invalidateJoint).length := by
      simpa using Nat.lt_of_not_le hc
    rw [List.append_assoc, List.getElem?_append_left hc', List.getElem?_map] at h
    cases hjd : js[j]? with
    | none => rw [hjd] at h; exact Option.noConfusion h
    | some x =>
      rw [hjd] at h
      exact DestroyEv.noConfusion (Option.some.inj h)
  · by_contra hc
    have hc' : (js.map DestroyEv.invalidateJoint ++ bs.map DestroyEv.invalidateBody).length
        ≤ j := by
      simpa using Nat.le_of_not_lt hc
    rw [List.getElem?_append_right hc'] at h
    exact DestroyEv.noConfusion (getElem?_single h).1

theorem cascade_release_pos (js bs : List Nat) (i : Nat)
    (h : (js.map DestroyEv.invalidateJoint ++ bs.map DestroyEv.invalidateBody ++
      [DestroyEv.releaseWorldNative])[i]? = some DestroyEv.releaseWorldNative) :
    i = js.length + bs.length := by
  by_cases hlt : i < (js.map DestroyEv.invalidateJoint ++ bs.map DestroyEv.invalidateBody).length
  · rw [List.getElem?_append_left hlt] at h
    by_cases hj : i < (js.map DestroyEv.invalidateJoint).length
    · rw [List.getElem?_append_left hj, List.getElem?_map] at h
      cases hjd : js[i]? with
      | none => rw [hjd] at h; exact Option.noConfusion h
      | some x => rw [hjd] at h; exact DestroyEv.noConfusion (Option.some.inj h)
    · rw [List.getElem?_append_right (Nat.le_of_not_lt hj), List.getElem?_map] at h
      cases hbd : bs[i - (js.map DestroyEv.invalidateJoint).length]? with
      | none => rw [hbd] at h; exact Option.noConfusion h
      | some x => rw [hbd] at h; exact DestroyEv.noConfusion (Option.some.inj h)
  · rw [List.getElem?_append_right (Nat.le_of_not_lt hlt)] at h
    have h0 := (getElem?_single h).2
    have hlen : (js.map DestroyEv.invalidateJoint ++ bs.map DestroyEv.invalidateBody).length =
        js.length + bs.length := by simp
    omega

theorem cascade_release_last (js bs : List Nat) :
    (js.map DestroyEv.invalidateJoint ++ bs.map DestroyEv.invalidateBody ++
      [DestroyEv.releaseWorldNative])[js.length + bs.length]? =
      some DestroyEv.releaseWorldNative := by
  have hlen : (js.map DestroyEv.invalidateJoint ++ bs.map DestroyEv.invalidateBody).length =
      js.length + bs.length := by simp
  rw [List.getElem?_append_right (le_of_eq hlen), hlen]
  simp

/-- C3: for a live world, `World.destroy` performs its cascade in the
exact order the spec gives — every owned-Joint invalidation precedes
every owned-Body invalidation, both precede the native world-handle
release, the release is the unique final event, and every live Joint and
Body owned by the world does appear in the cascade. -/
theorem C3_destroy_cascade_order :
    ∀ (s : AState) (w : Nat) (we : WorldE), Reach s → s.worlds w = some we →
      we.alive = true →
      (∀ (i a j b : Nat), (worldDestroy s w).trace[i]? = some (DestroyEv.invalidateJoint a) →
        (worldDestroy s w).trace[j]? = some (DestroyEv.invalidateBody b) → i < j) ∧
      (∀ (i a : Nat), (worldDestroy s w).trace[i]? = some (DestroyEv.invalidateJoint a) →
        i < (worldDestroy s w).trace.length - 1) ∧
      (∀ (j b : Nat), (worldDestroy s w).trace[j]? = some (DestroyEv.invalidateBody b) →
        j < (worldDestroy s w).trace.length - 1) ∧
      ((worldDestroy s w).trace[(worldDestroy s w).trace.length - 1]? =
        some DestroyEv.releaseWorldNative) ∧
      (∀ i : Nat, (worldDestroy s w).trace[i]? = some DestroyEv.releaseWorldNative →
        i = (worldDestroy s w).trace.length - 1) ∧
      (∀ j e, s.joints j = some e → e.alive = true → e.world = w →
        DestroyEv.invalidateJoint j ∈ (worldDestroy s w).trace) ∧
      (∀ b e, s.bodies b = some e → e.alive = true → e.world = w →
        DestroyEv.invalidateBody b ∈ (worldDestroy s w).trace) := by
  intro s w we hr hw hwa
  have htr := worldDestroy_trace_alive hw hwa
  have hlen : (worldDestroy s w).trace.length =
      (ownedJoints s w).length + (ownedBodies s w).length + 1 := by
    rw [htr]; simp; omega
  refine ⟨?_, ?_, ?_, ?_, ?_, ?_, ?_⟩
  · intro i a j b h1 h2
    rw [htr] at h1 h2
    have hi := cascade_joint_pos_lt _ _ i a h1
    have hj := (cascade_body_pos_bounds _ _ j b h2).1
    omega
  · intro i a h1
    rw [htr] at h1
    have hi := cascade_joint_pos_lt _ _ i a h1
    omega
  · intro j b h2
    rw [htr] at h2
    have hj := (cascade_body_pos_bounds _ _ j b h2).2
    omega
  · have h0 : (ownedJoints s w).length + (ownedBodies s w).length + 1 - 1 =
        (ownedJoints s w).length + (ownedBodies s w).length := by omega
    rw [hlen, htr, h0]
    exact cascade_release_last _ _
  · intro i h1
    rw [htr] at h1
    have := cascade_release_pos _ _ i h1
    omega
  · intro j e hj hja hjw
    rw [htr]
    exact List.mem_append_left _ (List.mem_append_left _
      (List.mem_map_of_mem _ (mem_ownedJoints (reach_inv hr) hj hja hjw)))
  · intro b e hb hba hbw
    rw [htr]
    exact List.mem_append_left _ (List.mem_append_right _
      (List.mem_map_of_mem _ (mem_ownedBodies (reach_inv hr) hb hba hbw)))

theorem reach_sWSBJfix : Reach sWSBJfix := by
  unfold sWSBJfix
  exact Reach.step _ _ reach_sWSB

/-- C3, witness: in the scenario with the fixed joint 3 and body 2 in
world 0, the cascade trace invalidates joint 3 (position 0) before body 2
(position 1), and the native release is its final event. -/
theorem C3_witness :
    (0 : Nat) < 1 ∧
    (worldDestroy sWSBJfix 0).trace[(worldDestroy sWSBJfix 0).trace.length - 1]? =
      some DestroyEv.releaseWorldNative := by
  have h := C3_destroy_cascade_order sWSBJfix 0 ⟨true, false, 0⟩ reach_sWSBJfix rfl rfl
  exact ⟨h.1 0 3 1 2 rfl rfl, h.2.2.2.1⟩

end MSP
